import Mathlib

/-!
# Interview session orchestrator: transcript reconciler and session state machine

A shallow embedding of the client logic in `src/components/InterviewPanel.jsx`,
`src/components/AudioRecorder.jsx`, `src/components/VideoPreview.jsx`,
`src/utils/socket.js`, `src/utils/audio.js`, `src/api/interview.js` and the sample
conversion of `static/js/main.js`.

JavaScript strings are embedded as Lean `String`s; `a.includes(b)` is "the
characters of `b` occur contiguously in `a`", and a string used as a condition
(`prevText && ...`) is true exactly when it is not the empty string.
-/

namespace Interview

/-! ## Strings -/

/-- The test `s.includes(t)`: `t` occurs in `s` as a contiguous run of characters. -/
def includes (s t : String) : Bool :=
  decide (t.data <:+: s.data)

/-- A string in condition position: true exactly when it is non-empty. -/
def truthy (s : String) : Bool :=
  s != ""

/-- White space and line terminators, the characters `String.prototype.trim` strips. -/
def isWhiteSpace (c : Char) : Bool :=
  let n := c.toNat
  n = 0x09 || n = 0x0A || n = 0x0B || n = 0x0C || n = 0x0D || n = 0x20 || n = 0xA0 ||
  n = 0x1680 || (0x2000 ≤ n && n ≤ 0x200A) || n = 0x2028 || n = 0x2029 || n = 0x202F ||
  n = 0x205F || n = 0x3000 || n = 0xFEFF

/-- The method `s.trim()`: leading and trailing white space removed. -/
def trim (s : String) : String :=
  ⟨((s.data.dropWhile isWhiteSpace).reverse.dropWhile isWhiteSpace).reverse⟩

/-- A text that is empty or consists of white space only. -/
def isBlank (s : String) : Bool :=
  s.data.all isWhiteSpace

/-! ## Transcript reconciler (`asr_result`, InterviewPanel.jsx lines 106-129) -/

/-- The updater handed to `setCurrentAnswerText` when the debounce timer fires:
`prevText` is the stable transcript, `newText` the trimmed fragment. -/
def asrUpdater (newText : String) (prevText : String) : String :=
  if prevText = newText then
    prevText
  else if truthy prevText && includes newText prevText then
    newText
  else if truthy prevText && includes prevText newText then
    prevText
  else if truthy prevText && !includes newText prevText && !includes prevText newText then
    prevText ++ " " ++ newText
  else
    newText

/-! ## Component state (`useState` values of `InterviewPanel`)

The embedding covers the panel while the interview tab is shown, the tab that
carries the session buttons; styling, the interviewer video element and the
other tabs are left out. -/

/-- One entry of `interviewHistory`. -/
structure HistoryEntry where
  question : String
  answer : String
deriving DecidableEq, Repr

/-- The object kept in `reportResult`: the server reply, or the local error marker. -/
inductive ReportData
  | reply (json : String)
  | error (text : String)
deriving DecidableEq, Repr

/-- The state variables of `InterviewPanel` (lines 21-47), with their initial values. -/
structure Panel where
  question : String := ""
  userAnswer : String := ""
  canAnswer : Bool := false
  isAnswering : Bool := false
  interviewing : Bool := false
  forceStopped : Bool := false
  interviewHistory : List HistoryEntry := []
  showReportBtn : Bool := false
  reportLoading : Bool := false
  reportResult : Option ReportData := none
  currentAnswerText : String := ""
  processedAnswer : String := ""
  hasAnswered : Bool := false
  videoEmotions : List String := []
  resumeText : String := ""
  showInterviewerVideo : Bool := false
  interviewSid : Option Nat := none
  audioAnalysis : String := ""
  audioAnalysisList : List String := []
deriving DecidableEq, Repr

/-! ## Socket module (`utils/socket.js`) -/

/-- The module state of `socket.js`. Connections are numbered in the order `io(...)`
opened them; `socket` is the module variable, `closed` the connections on which
`disconnect()` has been called. -/
structure SocketModule where
  socket : Option Nat := none
  opened : Nat := 0
  closed : List Nat := []
deriving DecidableEq, Repr

/-- The function `initSocket()`: opens a connection only when none is held; returns it. -/
def initSocket (m : SocketModule) : Nat × SocketModule :=
  match m.socket with
  | some k => (k, m)
  | none => (m.opened, { m with socket := some m.opened, opened := m.opened + 1 })

/-- The function `getSocket()`. -/
def getSocket (m : SocketModule) : Option Nat :=
  m.socket

/-- The function `closeSocket()`: disconnects the held connection and forgets it. -/
def closeSocket (m : SocketModule) : SocketModule :=
  match m.socket with
  | some k => { m with socket := none, closed := k :: m.closed }
  | none => m

/-! ## Events, listeners and effects -/

/-- Inbound events of the streaming channel, with their payloads. -/
inductive ServerEvent
  | aiQuestion (text : String)
  | canAnswer
  | asrResult (text : Option String) (isFinal : Bool)
  | aiFeedback (processed_answer : Option String) (audio_analysis : Option String)
  | answerResult (audio_analysis : Option String)
  | interviewForceStop
deriving DecidableEq, Repr

/-- Outbound events (`socket.emit`). -/
inductive Emit
  | endAnswer
  | userAnswer (text : String)
  | interviewEnd
deriving DecidableEq, Repr

/-- Transient notices (`message.info`, `message.warning`). -/
inductive Notice
  | info (text : String)
  | warning (text : String)
deriving DecidableEq, Repr

/-- A handler registered with `socket.on`, together with the state values its
closure captured when the registering effect ran. -/
inductive Listener
  | aiQuestion
  | canAnswer
  | asrResult (isAnswering : Bool)
  | aiFeedback (question userAnswer : String)
  | interviewForceStop
  | answerResult
  | aiFeedbackAnalysis
deriving DecidableEq, Repr

/-- Dependency values `[question, userAnswer, isAnswering]` of the socket effect. -/
structure Deps where
  question : String
  userAnswer : String
  isAnswering : Bool
deriving DecidableEq, Repr

/-- State of one capture graph built by `AudioRecorder` once `getUserMedia` resolved. -/
structure CaptureGraph where
  processorConnected : Bool
  sourceConnected : Bool
  contextOpen : Bool
  tracksLive : Bool
deriving DecidableEq, Repr

/-- The `AudioRecorder` component: the `canAnswer` prop its effect last ran with, the
graph held by the variables of that run (`none` while they are undefined), the
graphs of earlier runs as their cleanup left them, the number of `getUserMedia`
requests of earlier runs that had not resolved when their cleanup ran, and the
graphs such requests built afterwards (no cleanup refers to them any more). -/
structure AudioRecorder where
  canAnswer : Bool := false
  graph : Option CaptureGraph := none
  past : List CaptureGraph := []
  orphaned : Nat := 0
  stray : List CaptureGraph := []
deriving DecidableEq, Repr

/-- Everything the session touches: component state, refs, the socket module, the
registered listeners, the emitted events, the notices shown, and the `emotions`
state of the child component `VideoPreview`. -/
structure World where
  panel : Panel := {}
  net : SocketModule := {}
  socketRef : Option Nat := none
  listeners : List (Nat × Listener) := []
  deps : Deps := ⟨"", "", false⟩
  debounce : Option String := none
  asrUpdateCount : Nat := 0
  localStorage : Option Nat := none
  emitted : List (Nat × Emit) := []
  notices : List Notice := []
  recorder : AudioRecorder := {}
  previewEmotions : List String := []
deriving DecidableEq, Repr

/-! ### Socket event handlers (lines 56-157, 167-181, 191-211) -/

/-- Handler of `ai_question`. -/
def onAiQuestion (text : String) (p : Panel) : Panel :=
  { p with
    question := text
    userAnswer := ""
    currentAnswerText := ""
    processedAnswer := ""
    isAnswering := false
    canAnswer := true
    hasAnswered := false
    showInterviewerVideo := !(truthy text && includes text "面试已结束") }

/-- Handler of `can_answer`. -/
def onCanAnswer (w : World) : World :=
  { w with
    panel := { w.panel with
      canAnswer := true
      isAnswering := false
      currentAnswerText := ""
      processedAnswer := ""
      showInterviewerVideo := false }
    notices := w.notices ++ [Notice.info "请点击\"开始回答\"按钮开始作答"] }

/-- Handler of `asr_result`; `isAnswering` is the value its closure captured. A
non-blank text restarts the debounce timer with the trimmed fragment. -/
def onAsrResult (isAnswering : Bool) (text : Option String) (isFinal : Bool) (w : World) : World :=
  let w1 :=
    if isAnswering then
      match text with
      | some t =>
        if truthy t && truthy (trim t) then
          { w with asrUpdateCount := w.asrUpdateCount + 1, debounce := some (trim t) }
        else w
      | none => w
    else w
  if isFinal then { w1 with asrUpdateCount := 0 } else w1

/-- Expiry of the 150 ms debounce timer: the pending fragment is reconciled into
`currentAnswerText`. -/
def fireDebounce (w : World) : World :=
  match w.debounce with
  | some newText =>
    { w with
      panel := { w.panel with currentAnswerText := asrUpdater newText w.panel.currentAnswerText }
      debounce := none }
  | none => w

/-- The expression `data.processed_answer || userAnswer`. -/
def answerOf (processed_answer : Option String) (userAnswer : String) : String :=
  match processed_answer with
  | some a => if truthy a then a else userAnswer
  | none => userAnswer

/-- Handler of `ai_feedback` registered by the socket effect; `question` and
`userAnswer` are the values its closure captured. -/
def onAiFeedback (question userAnswer : String) (processed_answer : Option String)
    (p : Panel) : Panel :=
  let p1 :=
    match processed_answer with
    | some a => if truthy a then { p with processedAnswer := a, userAnswer := a } else p
    | none => p
  { p1 with
    canAnswer := false
    isAnswering := false
    hasAnswered := true
    interviewHistory := p1.interviewHistory ++ [⟨question, answerOf processed_answer userAnswer⟩] }

/-- Handler of `interview_force_stop`. -/
def onInterviewForceStop (p : Panel) : Panel :=
  { p with
    forceStopped := true
    interviewing := false
    question := ""
    userAnswer := ""
    isAnswering := false
    canAnswer := false
    currentAnswerText := ""
    processedAnswer := ""
    showReportBtn := true
    showInterviewerVideo := false }

/-- Handlers of `answer_result` and of the second `ai_feedback` listener: a present,
non-empty `audio_analysis` is appended to `audioAnalysisList`. -/
def onAudioAnalysis (audio_analysis : Option String) (p : Panel) : Panel :=
  match audio_analysis with
  | some a => if truthy a then { p with audioAnalysisList := p.audioAnalysisList ++ [a] } else p
  | none => p

/-- What a registered listener does with an event; a listener for another event
name is not called. -/
def runListener (e : ServerEvent) (l : Listener) (w : World) : World :=
  match l, e with
  | .aiQuestion, .aiQuestion text => { w with panel := onAiQuestion text w.panel }
  | .canAnswer, .canAnswer => onCanAnswer w
  | .asrResult isAnswering, .asrResult text isFinal => onAsrResult isAnswering text isFinal w
  | .aiFeedback q a, .aiFeedback pa _ => { w with panel := onAiFeedback q a pa w.panel }
  | .aiFeedbackAnalysis, .aiFeedback _ aa => { w with panel := onAudioAnalysis aa w.panel }
  | .answerResult, .answerResult aa => { w with panel := onAudioAnalysis aa w.panel }
  | .interviewForceStop, .interviewForceStop => { w with panel := onInterviewForceStop w.panel }
  | _, _ => w

/-- The listeners registered on connection `k`, in registration order. -/
def listenersOn (k : Nat) (ls : List (Nat × Listener)) : List (Nat × Listener) :=
  ls.filter (fun l => l.1 = k)

/-- Delivery of an event on connection `k`: its listeners run in registration order. -/
def dispatch (e : ServerEvent) (k : Nat) (w : World) : World :=
  (listenersOn k w.listeners).foldl (fun acc l => runListener e l.2 acc) w

/-! ### Effects -/

/-- Current values of the socket effect's dependencies. -/
def depsOf (p : Panel) : Deps :=
  ⟨p.question, p.userAnswer, p.isAnswering⟩

/-- The four `socket.on` calls of the socket effect on connection `k`, at a render
with state `p`: the `asr_result` and `ai_feedback` closures capture `isAnswering`,
`question` and `userAnswer` of that render. -/
def mainListeners (k : Nat) (p : Panel) : List (Nat × Listener) :=
  [(k, Listener.aiQuestion), (k, Listener.canAnswer), (k, Listener.asrResult p.isAnswering),
   (k, Listener.aiFeedback p.question p.userAnswer)]

/-- The `socket.on` calls of the two effects with an empty dependency list. -/
def mountListeners (k : Nat) : List (Nat × Listener) :=
  [(k, Listener.interviewForceStop), (k, Listener.answerResult),
   (k, Listener.aiFeedbackAnalysis)]

/-- Body of the socket effect (lines 52-157): `initSocket`, then the four listeners
are registered on the connection it returned. -/
def socketEffect (w : World) : World :=
  let r := initSocket w.net
  { w with
    net := r.2
    socketRef := some r.1
    listeners := w.listeners ++ mainListeners r.1 w.panel
    deps := depsOf w.panel }

/-- Cleanup of the socket effect (lines 159-161). -/
def socketCleanup (w : World) : World :=
  { w with net := closeSocket w.net }

/-- Cleanup of the capture effect (AudioRecorder.jsx lines 38-43) applied to the
graph the effect variables hold. -/
def captureCleanup (g : CaptureGraph) : CaptureGraph :=
  { g with
    processorConnected := false
    sourceConnected := false
    contextOpen := false
    tracksLive := false }

/-- Re-render of `AudioRecorder` with prop `canAnswer`: when the prop changed, the
cleanup of the previous run executes and the effect runs again. -/
def recorderRender (canAnswer : Bool) (r : AudioRecorder) : AudioRecorder :=
  if r.canAnswer = canAnswer then r
  else
    { r with
      canAnswer := canAnswer
      graph := none
      past := match r.graph with
        | some g => captureCleanup g :: r.past
        | none => r.past
      orphaned := if r.canAnswer && r.graph.isNone then r.orphaned + 1 else r.orphaned }

/-- The `getUserMedia` promise of the current run resolves: the graph is built. -/
def recorderResolve (r : AudioRecorder) : AudioRecorder :=
  if r.canAnswer && r.graph.isNone then { r with graph := some ⟨true, true, true, true⟩ } else r

/-- The `getUserMedia` promise of a run that was already cleaned up resolves: its
`then` callback still builds a graph, held by variables no cleanup will read. -/
def recorderResolveLate (r : AudioRecorder) : AudioRecorder :=
  match r.orphaned with
  | 0 => r
  | n + 1 => { r with orphaned := n, stray := ⟨true, true, true, true⟩ :: r.stray }

/-- Re-render after a state change: `AudioRecorder` receives `isAnswering` as its
prop, and the socket effect is cleaned up and re-run when one of its
dependencies changed. The effects with an empty dependency list do not re-run. -/
def commit (w : World) : World :=
  let w1 := { w with recorder := recorderRender w.panel.isAnswering w.recorder }
  if depsOf w1.panel = w1.deps then w1 else socketEffect (socketCleanup w1)

/-- Mount of the component: initial state, then the effects in source order: the
socket effect, the `interview_force_stop` effect and the voice-analysis effect,
the latter two on `socketRef.current`. -/
def mount (stored : Option Nat) : World :=
  let w0 : World := { panel := { interviewSid := stored }, localStorage := stored }
  let w1 := socketEffect w0
  match w1.socketRef with
  | some k => { w1 with listeners := w1.listeners ++ mountListeners k }
  | none => w1

/-- A server event arriving on the connection currently held by the socket module,
followed by the re-render it causes: the case of an event that is the only one
handled before React re-renders and re-runs the effects. -/
def deliver (e : ServerEvent) (w : World) : World :=
  match getSocket w.net with
  | some k => commit (dispatch e k w)
  | none => w

/-- A server event handled while the re-render is still to come: React defers the
re-render and the effects, so the listeners stay those of the last completed render,
with the values their closures captured then, on the connection still held. The
setters of the handlers are applied in order; the next `deliver`, or any other step
that re-renders, runs the effects once for the state reached. -/
def receive (e : ServerEvent) (w : World) : World :=
  match getSocket w.net with
  | some k => dispatch e k w
  | none => w

/-- The `interview_force_stop` handler run on the state of `w`, followed by the
re-render it causes. -/
def handleForceStop (w : World) : World :=
  commit { w with panel := onInterviewForceStop w.panel }

/-- A reply of `/api/face_emotion` reaches `VideoPreview` (VideoPreview.jsx lines
47-55): a present, non-empty `emotion` is appended to the child's `emotions`, and
the whole new list is handed to the parent through `onEmotionResult`, which is
`setVideoEmotions`. -/
def onEmotionReply (emotion : Option String) (w : World) : World :=
  match emotion with
  | some e =>
    if truthy e then
      { w with
        previewEmotions := w.previewEmotions ++ [e]
        panel := { w.panel with videoEmotions := w.previewEmotions ++ [e] } }
    else w
  | none => w

/-! ### User actions (lines 222-300) and the buttons that trigger them (lines 555-589) -/

/-- The function `handleStart`; `ok` tells whether `startInterview()` resolved (when it
rejects, the statements after the `await` do not run). -/
def handleStart (ok : Bool) (w : World) : World :=
  let p1 : Panel :=
    { w.panel with
      forceStopped := false
      showReportBtn := false
      reportResult := none
      interviewHistory := []
      isAnswering := false
      currentAnswerText := ""
      processedAnswer := ""
      hasAnswered := false
      showInterviewerVideo := true
      audioAnalysisList := [] }
  let w1 : World :=
    match getSocket w.net with
    | some k => { w with panel := { p1 with interviewSid := some k }, localStorage := some k }
    | none => { w with panel := p1 }
  if ok then { w1 with panel := { w1.panel with interviewing := true } } else w1

/-- The function `handleStop`; `ok` tells whether `stopInterview()` resolved. -/
def handleStop (ok : Bool) (w : World) : World :=
  if w.panel.forceStopped then w
  else if !ok then w
  else
    let w1 : World :=
      match getSocket w.net with
      | some k => { w with emitted := w.emitted ++ [(k, Emit.interviewEnd)] }
      | none => w
    { w1 with
      panel := { w1.panel with
        interviewing := false
        forceStopped := true
        question := ""
        userAnswer := ""
        isAnswering := false
        canAnswer := false
        currentAnswerText := ""
        processedAnswer := ""
        showReportBtn := true } }

/-- The function `handleStartAnswer`. -/
def handleStartAnswer (w : World) : World :=
  { w with
    panel := { w.panel with
      isAnswering := true
      currentAnswerText := ""
      userAnswer := ""
      processedAnswer := "" }
    notices := w.notices ++ [Notice.info "开始回答，请说话或输入文字"] }

/-- The function `handleEndAnswer`. -/
def handleEndAnswer (w : World) : World :=
  let finalAnswer := w.panel.currentAnswerText
  let w1 : World :=
    { w with
      panel := { w.panel with
        isAnswering := false
        userAnswer := finalAnswer
        currentAnswerText := ""
        canAnswer := false } }
  match getSocket w1.net with
  | some k =>
    let w2 : World := { w1 with emitted := w1.emitted ++ [(k, Emit.endAnswer)] }
    if truthy finalAnswer && truthy (trim finalAnswer) then
      { w2 with
        emitted := w2.emitted ++ [(k, Emit.userAnswer finalAnswer)]
        notices := w2.notices ++ [Notice.info "回答已提交，等待AI反馈"] }
    else
      { w2 with
        panel := { w2.panel with canAnswer := true, isAnswering := false }
        notices := w2.notices ++ [Notice.warning "没有检测到回答内容"] }
  | none => w1

/-- Render condition of the start-answer button (line 555). -/
def startAnswerShown (p : Panel) : Bool :=
  p.canAnswer && !p.isAnswering && !p.hasAnswered

/-- Render condition of the end-answer button (line 564). -/
def endAnswerShown (p : Panel) : Bool :=
  p.isAnswering

/-- What the user can do on the interview tab. `ok` is the outcome of the HTTP call
the action awaits. -/
inductive UserAction
  | start (ok : Bool)
  | stop (ok : Bool)
  | startAnswer
  | endAnswer
deriving DecidableEq, Repr

/-- A user action on the rendered panel: a button that is not rendered, or is
disabled, triggers nothing; otherwise its handler runs and the panel re-renders. -/
def act (a : UserAction) (w : World) : World :=
  match a with
  | .start ok => if !w.panel.interviewing then commit (handleStart ok w) else w
  | .stop ok => if w.panel.interviewing then commit (handleStop ok w) else w
  | .startAnswer => if startAnswerShown w.panel then commit (handleStartAnswer w) else w
  | .endAnswer => if endAnswerShown w.panel then commit (handleEndAnswer w) else w

/-- One step of the event loop. A server event or a user action of a step is followed
by the re-render it causes; a server event handled before that re-render is `receive`. -/
inductive Step
  | server (e : ServerEvent)
  | user (a : UserAction)
  | debounceTimer
  | micGranted
  | micGrantedLate
  | emotionReply (emotion : Option String)
deriving DecidableEq, Repr

/-- Effect of one step on the world. -/
def step (w : World) (s : Step) : World :=
  match s with
  | .server e => deliver e w
  | .user a => act a w
  | .debounceTimer => commit (fireDebounce w)
  | .micGranted => { w with recorder := recorderResolve w.recorder }
  | .micGrantedLate => { w with recorder := recorderResolveLate w.recorder }
  | .emotionReply emotion => commit (onEmotionReply emotion w)

/-- The world after a sequence of steps. -/
def run (w : World) (steps : List Step) : World :=
  steps.foldl step w

/-- The session is in `ForceStopped`. -/
def isForceStopped (p : Panel) : Bool :=
  p.forceStopped && !p.interviewing && !p.canAnswer && !p.isAnswering

/-- The world reached from mount by: start, question `q`, `can_answer`, start answer,
the fragment `a` reconciled, end answer. It is `FeedbackPending` when `a` is not blank. -/
def feedbackPending (q a : String) : World :=
  run (mount none)
    [Step.user (UserAction.start true), Step.server (ServerEvent.aiQuestion q),
     Step.server ServerEvent.canAnswer, Step.user UserAction.startAnswer, Step.micGranted,
     Step.server (ServerEvent.asrResult (some a) true), Step.debounceTimer,
     Step.user UserAction.endAnswer]

/-- The step that delivers one `asr_result` with the given text and final flag. -/
def asrStep (f : String × Bool) : Step :=
  Step.server (ServerEvent.asrResult (some f.1) f.2)

/-- The world reached from mount by: start, question `q`, `can_answer`, start answer,
microphone granted, then each fragment of `frags` delivered and its debounce timer
expired. -/
def answeringAfter (q : String) (frags : List String) : World :=
  run (mount none)
    ([Step.user (UserAction.start true), Step.server (ServerEvent.aiQuestion q),
      Step.server ServerEvent.canAnswer, Step.user UserAction.startAnswer, Step.micGranted] ++
      frags.flatMap (fun f => [asrStep (f, false), Step.debounceTimer]))

/-! ## PCM conversion (`utils/audio.js`, `AudioRecorder.jsx`, `static/js/main.js`)

Samples are exact rationals: the finite values of a `Float32Array`, on which the
products below are exact in double precision. -/

/-- Storing a number in an `Int16Array`: the fraction is dropped (towards zero), the
integer is reduced modulo 2^16 and read as a signed 16-bit value. -/
def toInt16 (v : ℚ) : Int :=
  let t : Int := if v < 0 then -⌊-v⌋ else ⌊v⌋
  let m := t % 65536
  if 32768 ≤ m then m - 65536 else m

/-- The function `float32ToInt16` of `utils/audio.js` (lines 25-33). -/
def float32ToInt16 (buffer : List ℚ) : List Int :=
  buffer.map (fun x =>
    let s := max (-1) (min 1 x)
    toInt16 (if s < 0 then s * 0x8000 else s * 0x7FFF))

/-- The conversion loop inside `processor.onaudioprocess` of `AudioRecorder.jsx`
(lines 20-25). -/
def onaudioprocessBuf (input : List ℚ) : List Int :=
  input.map (fun x =>
    let s := max (-1) (min 1 x)
    toInt16 (if s < 0 then s * 0x8000 else s * 0x7FFF))

/-- The function `float32ToInt16` of `static/js/main.js` (lines 162-170). -/
def mainFloat32ToInt16 (buffer : List ℚ) : List Int :=
  buffer.map (fun x =>
    let s := max (-1) (min 1 x)
    toInt16 (if s < 0 then s * 0x8000 else s * 0x7FFF))

/-- The conversion as the specification words it: clamp to [-1, 1], scale negative
values by 32768 and the others by 32767, truncate toward zero. -/
def pcmSpec (x : ℚ) : Int :=
  let c := max (-1) (min 1 x)
  let v := if c < 0 then c * 32768 else c * 32767
  if v < 0 then ⌈v⌉ else ⌊v⌋

/-- One debounce window: the `asr_result` events `win.1` and then `win.2` arrive with no
timer expiry in between, then the timer set by the last one expires. -/
def windowSteps (win : List (String × Bool) × (String × Bool)) : List Step :=
  win.1.map asrStep ++ [asrStep win.2, Step.debounceTimer]

/-- The `text` of an `asr_result` is missing, empty or white space only. -/
def textBlank (text : Option String) : Bool :=
  match text with
  | some t => isBlank t
  | none => true

/-! ## Report assembly (`summarizeEmotions`, `handleGenerateReport`, lines 302-346) -/

/-- A property value of the object `stat`: a number, or the string that `+ 1` makes of
a value that is not a number. -/
inductive StatValue
  | num (n : Nat)
  | str (s : String)
deriving DecidableEq, Repr

/-- The function-valued properties every object literal inherits from
`Object.prototype`. -/
def objectPrototypeMethods : List String :=
  ["constructor", "__defineGetter__", "__defineSetter__", "hasOwnProperty",
   "__lookupGetter__", "__lookupSetter__", "isPrototypeOf", "propertyIsEnumerable",
   "toString", "valueOf", "toLocaleString"]

/-- The text V8 and JavaScriptCore print for the built-in function found under the
property `name` of `Object.prototype`; the function under `constructor` is `Object`. -/
def nativeText (name : String) : String :=
  "function " ++ (if name = "constructor" then "Object" else name) ++ "() { [native code] }"

/-- The expression `(v || 0) + 1` on an own property value `v`. -/
def orZeroPlusOne (v : StatValue) : StatValue :=
  match v with
  | .num n => .num (n + 1)
  | .str t => if truthy t then .str (t ++ "1") else .num 1

/-- The statement `stat[e] = (stat[e] || 0) + 1` on the own properties of `stat`, kept
in creation order. `host e` is the text the host prints for the inherited function
named `e`. Reading `__proto__` yields the prototype object and assigning a string to
it is ignored; reading another inherited name yields a function, and the assignment
creates an own property holding a string. -/
def bump (host : String → String) (stat : List (String × StatValue)) (e : String) :
    List (String × StatValue) :=
  if e = "__proto__" then stat
  else
    match stat.lookup e with
    | some v => stat.map (fun kv => if kv.1 = e then (e, orZeroPlusOne v) else kv)
    | none =>
      if e ∈ objectPrototypeMethods then stat ++ [(e, StatValue.str (host e ++ "1"))]
      else stat ++ [(e, StatValue.num 1)]

/-- The numeric value of a string of decimal digits. -/
def digitsValue (s : String) : Nat :=
  s.data.foldl (fun n c => n * 10 + (c.toNat - 48)) 0

/-- The key is an array index: a canonical decimal numeral below 2^32 - 1. -/
def isArrayIndex (s : String) : Bool :=
  !s.data.isEmpty && s.data.all Char.isDigit && (s.data.length == 1 || s.data.head? != some '0') &&
    decide (digitsValue s < 4294967295)

/-- The list `Object.entries(stat)`: array-index keys in ascending numeric order, then
the other keys in creation order. -/
def objectEntries (stat : List (String × StatValue)) : List (String × StatValue) :=
  (stat.filter (fun kv => isArrayIndex kv.1)).insertionSort
      (fun a b => digitsValue a.1 ≤ digitsValue b.1) ++
    stat.filter (fun kv => !isArrayIndex kv.1)

/-- A property value inside a template literal. -/
def renderValue (v : StatValue) : String :=
  match v with
  | .num n => toString n
  | .str t => t

/-- The function `summarizeEmotions` (lines 303-311); `none` is an absent list. -/
def summarizeEmotions (host : String → String) (emotions : Option (List String)) : String :=
  match emotions with
  | none => "无视频数据"
  | some es =>
    if es.length = 0 then "无视频数据"
    else
      let stat := es.foldl (bump host) []
      let total := es.length
      String.intercalate "，"
          ((objectEntries stat).map (fun kv => kv.1 ++ "：" ++ renderValue kv.2 ++ "次")) ++
        ("。总采集帧数：" ++ toString total)

/-- The text `audioAnalysisText` of `handleGenerateReport` (lines 318-325). The reply
is `none` when the request or its decoding fails, `some none` when the reply has no
`audio_analysis` field, `some (some l)` when it carries the list `l`. -/
def audioAnalysisText (reply : Option (Option (List String))) : String :=
  match reply with
  | none => "无语音分析数据"
  | some field =>
    String.intercalate "\n"
      ((field.getD []).enum.map (fun it => "第" ++ toString (it.1 + 1) ++ "轮：" ++ it.2))

/-- The body posted to `/api/interview/result`. -/
structure ReportRequest where
  history : List HistoryEntry
  video_analysis : String
  resume_text : String
  audio_analysis : String
deriving DecidableEq, Repr

/-- The request body `handleGenerateReport` builds (lines 327-337). -/
def reportRequest (host : String → String) (reply : Option (Option (List String)))
    (p : Panel) : ReportRequest :=
  { history := p.interviewHistory
    video_analysis := summarizeEmotions host (some p.videoEmotions)
    resume_text := p.resumeText
    audio_analysis := audioAnalysisText reply }

/-- The function `handleGenerateReport` on the component state; `result` is the decoded
reply of `/api/interview/result`, `none` when the request fails. -/
def handleGenerateReport (result : Option String) (p : Panel) : Panel :=
  match result with
  | some json =>
    { p with reportResult := some (ReportData.reply json), showReportBtn := false,
             reportLoading := false }
  | none =>
    { p with reportResult := some (ReportData.error "生成评测报告失败"), reportLoading := false }

/-- The connections returned by `n` consecutive calls of `initSocket`, and the module
state after them. -/
def initSocketCalls : Nat → SocketModule → List Nat × SocketModule
  | 0, m => ([], m)
  | n + 1, m => ((initSocket m).1 :: (initSocketCalls n (initSocket m).2).1,
      (initSocketCalls n (initSocket m).2).2)

/-- A fragment as the reconciler receives it: non-empty and already trimmed. -/
def IsFragment (f : String) : Prop :=
  f ≠ "" ∧ trim f = f

/-- The own properties `stat` count the labels seen so far: one property per distinct
label, holding the number of its occurrences. -/
def Counted (seen : List String) (stat : List (String × StatValue)) : Prop :=
  (stat.map Prod.fst).Nodup ∧ (∀ e, e ∈ stat.map Prod.fst ↔ e ∈ seen) ∧
    ∀ kv ∈ stat, kv.2 = StatValue.num (seen.count kv.1)

/-- The world reached from mount by: start, question `q`, `can_answer`, start answer,
with the microphone request of `AudioRecorder` not yet answered. -/
def answeringPending (q : String) : World :=
  run (mount none)
    [Step.user (UserAction.start true), Step.server (ServerEvent.aiQuestion q),
     Step.server ServerEvent.canAnswer, Step.user UserAction.startAnswer]

/-- The world reached from mount by: start, question `q`, `can_answer`. The
start-answer button is shown. -/
def posed (q : String) : World :=
  run (mount none)
    [Step.user (UserAction.start true), Step.server (ServerEvent.aiQuestion q),
     Step.server ServerEvent.canAnswer]

/-- A text that is non-empty and neither starts nor ends with white space. -/
def Clean (s : String) : Prop :=
  s ≠ "" ∧ (∀ c, s.data.head? = some c → isWhiteSpace c = false) ∧
    (∀ c, s.data.getLast? = some c → isWhiteSpace c = false)

/-- The stable transcript after the fragments were applied in turn to the empty
transcript that `handleStartAnswer` sets. -/
def reconciled (frags : List String) : String :=
  frags.foldl (fun acc f => asrUpdater f acc) ""

/-- The steps that apply each fragment in turn: its `asr_result`, then the expiry of
the debounce timer. -/
def applySteps (frags : List String) : List Step :=
  frags.flatMap (fun f => [asrStep (f, false), Step.debounceTimer])

/-- The step is a click on the start-interview button. -/
def isStart (s : Step) : Bool :=
  match s with
  | .user (.start _) => true
  | _ => false

/-- The step is one of the two server events whose handler sets `canAnswer` to true. -/
def reenables (s : Step) : Bool :=
  match s with
  | .server (.aiQuestion _) => true
  | .server .canAnswer => true
  | _ => false

/-- The state of the listeners after a render: a connection is held, the socket effect
last ran with the current `question`, `userAnswer` and `isAnswering`, and the
listeners on the held connection are the four of that run, followed on the
connection opened at mount by the three of the mount-only effects. -/
def Listening (w : World) : Prop :=
  ∃ k, getSocket w.net = some k ∧ w.deps = depsOf w.panel ∧
    (∀ l ∈ w.listeners, l.1 < w.net.opened) ∧
    (listenersOn k w.listeners = mainListeners k w.panel ∨
      listenersOn k w.listeners = mainListeners k w.panel ++ mountListeners k)

/-- A handler run leaves the socket module, the listeners and the effect dependencies. -/
def Frame (w w' : World) : Prop :=
  w'.net = w.net ∧ w'.listeners = w.listeners ∧ w'.deps = w.deps

/-! ## Properties of the transcript reconciler -/

theorem includes_iff (s t : String) : includes s t = true ↔ t.data <:+: s.data := by
  simp [includes]

theorem truthy_iff (s : String) : truthy s = true ↔ s ≠ "" := by
  simp [truthy]

theorem includes_join_right (p x : String) : includes (p ++ " " ++ x) x = true := by
  rw [includes_iff]
  exact ⟨(p ++ " ").data, [], by simp⟩

theorem includes_join_left (p x : String) : includes (p ++ " " ++ x) p = true := by
  rw [includes_iff]
  exact ⟨[], (" " ++ x).data, by simp [String.append_assoc]⟩

theorem join_ne_empty (p x : String) : p ++ " " ++ x ≠ "" := by
  intro h
  have hl := congrArg String.length h
  simp only [String.length_append] at hl
  have h1 : " ".length = 1 := rfl
  have h2 : "".length = 0 := rfl
  omega

/-- Two strings that contain each other are equal. -/
theorem includes_antisymm (p x : String) (h1 : includes p x = true) (h2 : includes x p = true) :
    p = x := by
  rw [includes_iff] at h1 h2
  exact String.ext (h2.eq_of_length_le h1.length_le)

/-- The regression branch: a fragment already contained in a non-empty transcript
leaves it as it is. -/
theorem asrUpdater_of_contained (p x : String) (hp : p ≠ "") (h : includes p x = true) :
    asrUpdater x p = p := by
  unfold asrUpdater
  by_cases h1 : p = x
  · simp [h1]
  · simp only [h1, if_false]
    by_cases h2 : includes x p = true
    · exact absurd (includes_antisymm p x h h2) h1
    · simp [h2, h, (truthy_iff p).2 hp]

/-- The three possible results of the updater. -/
theorem asrUpdater_cases (p x : String) :
    asrUpdater x p = x ∨ (asrUpdater x p = p ∧ p ≠ "" ∧ includes p x = true) ∨
      (asrUpdater x p = p ++ " " ++ x ∧ p ≠ "") := by
  unfold asrUpdater
  by_cases h1 : p = x
  · left; simp [h1]
  · simp only [h1, if_false]
    by_cases hp : truthy p = true
    · by_cases h2 : includes x p = true
      · left; simp [hp, h2]
      · by_cases h3 : includes p x = true
        · right; left; simp [hp, h2, h3, (truthy_iff p).1 hp]
        · right; right; simp [hp, h2, h3, (truthy_iff p).1 hp]
    · left; simp [hp]

/-- Claim C1. Idempotence of the transcript reconciler: applying a fragment `x` to the
stable transcript and then applying `x` again gives the same transcript as applying it
once. It holds for every transcript `p` and every fragment `x`, in particular for the
non-empty trimmed fragments the handler passes. -/
theorem asrUpdater_idempotent (p x : String) :
    asrUpdater x (asrUpdater x p) = asrUpdater x p := by
  rcases asrUpdater_cases p x with h | ⟨h, hp, hi⟩ | ⟨h, _⟩
  · rw [h]; simp [asrUpdater]
  · rw [h]; exact asrUpdater_of_contained p x hp hi
  · rw [h]
    exact asrUpdater_of_contained _ _ (join_ne_empty p x) (includes_join_right p x)

/-- Claim C2. Extension: when the fragment `x` contains the stable transcript `p` as a
substring, applying `x` makes the stable transcript exactly `x`. -/
theorem asrUpdater_extension (p x : String) (h : includes x p = true) :
    asrUpdater x p = x := by
  unfold asrUpdater
  by_cases h1 : p = x
  · simp [h1]
  · by_cases hp : truthy p = true
    · simp [h1, hp, h]
    · simp [h1, hp]

/-- Witness for C2: stable "hello", fragment "hello world". -/
theorem asrUpdater_extension_witness :
    includes "hello world" "hello" = true ∧ asrUpdater "hello world" "hello" = "hello world" :=
  ⟨by decide, asrUpdater_extension "hello" "hello world" (by decide)⟩

/-- Claim C3. Regression suppression: when the non-empty fragment `x` is a substring of
the stable transcript `p`, applying `x` leaves the stable transcript equal to `p`. -/
theorem asrUpdater_regression (p x : String) (hx : x ≠ "") (h : includes p x = true) :
    asrUpdater x p = p := by
  by_cases hp : p = ""
  · subst hp
    rw [includes_iff] at h
    have hl := h.length_le
    have hx0 : x.data = [] := List.eq_nil_of_length_eq_zero (Nat.le_zero.mp hl)
    exact absurd (String.ext hx0) hx
  · exact asrUpdater_of_contained p x hp h

/-- Witness for C3: stable "hello world", fragment "hello". -/
theorem asrUpdater_regression_witness :
    "hello" ≠ "" ∧ includes "hello world" "hello" = true ∧
      asrUpdater "hello" "hello world" = "hello world" :=
  ⟨by decide, by decide, asrUpdater_regression "hello world" "hello" (by decide) (by decide)⟩

/-- Claim C4. Disjoint concatenation: when neither of the stable transcript `p` and the
fragment `x` is a substring of the other (so both are non-empty), applying `x` makes
the stable transcript `p`, one space, then `x`. -/
theorem asrUpdater_disjoint (p x : String) (hp : p ≠ "") (hx : x ≠ "")
    (h1 : includes x p = false) (h2 : includes p x = false) :
    asrUpdater x p = p ++ " " ++ x := by
  have hne : p ≠ x := by
    intro h
    subst h
    simp [includes] at h1
  unfold asrUpdater
  simp [hne, h1, h2, (truthy_iff p).2 hp]

/-- Witness for C4: stable "hello", fragment "goodbye". -/
theorem asrUpdater_disjoint_witness :
    "hello" ≠ "" ∧ "goodbye" ≠ "" ∧ includes "goodbye" "hello" = false ∧
      includes "hello" "goodbye" = false ∧ asrUpdater "goodbye" "hello" = "hello goodbye" :=
  ⟨by decide, by decide, by decide, by decide,
    asrUpdater_disjoint "hello" "goodbye" (by decide) (by decide) (by decide) (by decide)⟩

/-- Claim C5. Monotone update: the stable transcript `p` is a substring of the stable
transcript after applying any fragment `x`, and the transcript does not get shorter. -/
theorem asrUpdater_monotone (p x : String) :
    includes (asrUpdater x p) p = true ∧ p.length ≤ (asrUpdater x p).length := by
  have key : includes (asrUpdater x p) p = true := by
    rcases asrUpdater_cases p x with h | ⟨h, _, _⟩ | ⟨h, _⟩
    · by_cases h1 : p = x
      · rw [h, h1]; simp [includes]
      · by_cases hp : truthy p = true
        · by_cases h2 : includes x p = true
          · rw [h]; exact h2
          · have h3 : includes p x = true := by
              by_contra h3
              have hd := asrUpdater_disjoint p x ((truthy_iff p).1 hp)
                (by intro hx; subst hx; simp [includes] at h3)
                (by simpa using h2) (by simpa using h3)
              rw [h] at hd
              have hl := congrArg String.length hd
              simp only [String.length_append] at hl
              have h4 : " ".length = 1 := rfl
              omega
            rw [asrUpdater_of_contained p x ((truthy_iff p).1 hp) h3]
            simp [includes]
        · have hp0 : p = "" := by
            by_contra hp0
            exact hp ((truthy_iff p).2 hp0)
          subst hp0
          simp [includes]
    · rw [h]; simp [includes]
    · rw [h]; exact includes_join_left p x
  exact ⟨key, ((includes_iff _ _).1 key).length_le⟩

/-! ## Properties of the session state machine -/

/-- Re-rendering runs effects; it does not change the component state. -/
theorem commit_panel (w : World) : (commit w).panel = w.panel := by
  unfold commit
  dsimp only
  split
  · rfl
  · rfl

/-- Re-rendering after a change that left `isAnswering` as the recorder last saw it
leaves the recorder alone. -/
theorem commit_recorder (w : World) :
    (commit w).recorder = recorderRender w.panel.isAnswering w.recorder := by
  unfold commit
  dsimp only
  split
  · rfl
  · rfl

/-- Claim C6. State guard on start answer: unless answering is enabled for the current
question (`canAnswer` true, not already answering, no answer given yet), a start-answer
request changes nothing: the whole state, `isAnswering` included, stays as it was (so
it stays false in `FeedbackPending`, where it is false), and the recorder, hence audio
capture, is untouched. -/
theorem startAnswer_rejected (w : World)
    (h : ¬ (w.panel.canAnswer = true ∧ w.panel.isAnswering = false ∧
        w.panel.hasAnswered = false)) :
    act UserAction.startAnswer w = w ∧
      (act UserAction.startAnswer w).panel.isAnswering = w.panel.isAnswering ∧
      (act UserAction.startAnswer w).recorder = w.recorder := by
  have hs : startAnswerShown w.panel = false := by
    unfold startAnswerShown
    cases hc : w.panel.canAnswer <;> cases ha : w.panel.isAnswering <;>
      cases hh : w.panel.hasAnswered <;> simp_all
  have hw : act UserAction.startAnswer w = w := by
    simp [act, hs]
  rw [hw]
  exact ⟨rfl, rfl, rfl⟩

/-- Witness for C6: in `FeedbackPending` (answer submitted, `canAnswer` and
`isAnswering` false) the request is rejected. -/
theorem startAnswer_rejected_witness :
    ¬ ((feedbackPending "Q1" "an answer").panel.canAnswer = true ∧
        (feedbackPending "Q1" "an answer").panel.isAnswering = false ∧
        (feedbackPending "Q1" "an answer").panel.hasAnswered = false) ∧
      act UserAction.startAnswer (feedbackPending "Q1" "an answer") =
        feedbackPending "Q1" "an answer" ∧
      (act UserAction.startAnswer (feedbackPending "Q1" "an answer")).panel.isAnswering =
        false ∧
      (act UserAction.startAnswer (feedbackPending "Q1" "an answer")).recorder =
        (feedbackPending "Q1" "an answer").recorder :=
  ⟨by decide, startAnswer_rejected (feedbackPending "Q1" "an answer") (by decide)⟩

/-- What the `interview_force_stop` handler sets, from every state: `forceStopped`, not
`interviewing`, `canAnswer` and `isAnswering` false, empty question, user answer, live
transcript and processed answer, and the report button shown. On the re-render
`AudioRecorder`, driven by `isAnswering`, runs its cleanup; for a capture whose graph
was built it disconnects both nodes, closes the context and stops the tracks. -/
theorem forceStop_result (p : Panel) (g : CaptureGraph) (past stray : List CaptureGraph)
    (orphaned : Nat) :
    (onInterviewForceStop p).forceStopped = true ∧
      (onInterviewForceStop p).interviewing = false ∧
      (onInterviewForceStop p).canAnswer = false ∧
      (onInterviewForceStop p).isAnswering = false ∧
      (onInterviewForceStop p).question = "" ∧
      (onInterviewForceStop p).userAnswer = "" ∧
      (onInterviewForceStop p).currentAnswerText = "" ∧
      (onInterviewForceStop p).processedAnswer = "" ∧
      (onInterviewForceStop p).showReportBtn = true ∧
      recorderRender (onInterviewForceStop p).isAnswering ⟨true, some g, past, orphaned, stray⟩ =
        ⟨false, none, ⟨false, false, false, false⟩ :: past, orphaned, stray⟩ := by
  refine ⟨rfl, rfl, rfl, rfl, rfl, rfl, rfl, rfl, rfl, ?_⟩
  simp [recorderRender, onInterviewForceStop, captureCleanup]

/-- No listener changes the history or the report when the event is a forced stop. -/
theorem runListener_forceStop_frame (l : Listener) (w : World) :
    (runListener ServerEvent.interviewForceStop l w).panel.interviewHistory =
        w.panel.interviewHistory ∧
      (runListener ServerEvent.interviewForceStop l w).panel.reportResult =
        w.panel.reportResult := by
  cases l <;> exact ⟨rfl, rfl⟩

/-- Delivering a forced stop to any list of listeners keeps history and report. -/
theorem foldl_forceStop_frame (ls : List (Nat × Listener)) (w : World) :
    (ls.foldl (fun acc l => runListener ServerEvent.interviewForceStop l.2 acc)
        w).panel.interviewHistory = w.panel.interviewHistory ∧
      (ls.foldl (fun acc l => runListener ServerEvent.interviewForceStop l.2 acc)
        w).panel.reportResult = w.panel.reportResult := by
  induction ls generalizing w with
  | nil => exact ⟨rfl, rfl⟩
  | cons l ls ih =>
    simp only [List.foldl_cons]
    have h1 := ih (runListener ServerEvent.interviewForceStop l.2 w)
    have h2 := runListener_forceStop_frame l.2 w
    exact ⟨h1.1.trans h2.1, h1.2.trans h2.2⟩

/-- Claim C8. Stopping preserves history: the forced-stop handler, the delivery of
`interview_force_stop` in any world, the function `handleStop` and the stop button all
leave `interviewHistory` and `reportResult` exactly as they were. -/
theorem stop_preserves_history (w : World) (ok : Bool) :
    (onInterviewForceStop w.panel).interviewHistory = w.panel.interviewHistory ∧
      (onInterviewForceStop w.panel).reportResult = w.panel.reportResult ∧
      (deliver ServerEvent.interviewForceStop w).panel.interviewHistory =
        w.panel.interviewHistory ∧
      (deliver ServerEvent.interviewForceStop w).panel.reportResult =
        w.panel.reportResult ∧
      (handleStop ok w).panel.interviewHistory = w.panel.interviewHistory ∧
      (handleStop ok w).panel.reportResult = w.panel.reportResult ∧
      (act (UserAction.stop ok) w).panel.interviewHistory = w.panel.interviewHistory ∧
      (act (UserAction.stop ok) w).panel.reportResult = w.panel.reportResult := by
  have hstop : (handleStop ok w).panel.interviewHistory = w.panel.interviewHistory ∧
      (handleStop ok w).panel.reportResult = w.panel.reportResult := by
    unfold handleStop
    split
    · exact ⟨rfl, rfl⟩
    · split
      · exact ⟨rfl, rfl⟩
      · dsimp only
        split <;> exact ⟨rfl, rfl⟩
  have hdel : (deliver ServerEvent.interviewForceStop w).panel.interviewHistory =
        w.panel.interviewHistory ∧
      (deliver ServerEvent.interviewForceStop w).panel.reportResult =
        w.panel.reportResult := by
    unfold deliver
    split
    · rw [commit_panel]
      exact foldl_forceStop_frame _ w
    · exact ⟨rfl, rfl⟩
  have hact : (act (UserAction.stop ok) w).panel.interviewHistory =
        w.panel.interviewHistory ∧
      (act (UserAction.stop ok) w).panel.reportResult = w.panel.reportResult := by
    simp only [act]
    split
    · rw [commit_panel]; exact hstop
    · exact ⟨rfl, rfl⟩
  exact ⟨rfl, rfl, hdel.1, hdel.2, hstop.1, hstop.2, hact.1, hact.2⟩


/-- Claim C9, evaluated on the code. After mount and one `ai_question` the socket effect
has closed the mount connection and opened connection 1; an `interview_force_stop`
delivered on that open connection finds no listener and the session is not in
`ForceStopped`, whereas the same signal right after mount is handled. -/
theorem forceStop_lost_after_question :
    getSocket (run (mount none) [Step.server (ServerEvent.aiQuestion "Q1")]).net = some 1 ∧
      (run (mount none)
        [Step.server (ServerEvent.aiQuestion "Q1"),
         Step.server ServerEvent.interviewForceStop]).panel.forceStopped = false ∧
      isForceStopped (run (mount none)
        [Step.server (ServerEvent.aiQuestion "Q1"),
         Step.server ServerEvent.interviewForceStop]).panel = false ∧
      isForceStopped (run (mount none) [Step.server ServerEvent.interviewForceStop]).panel =
        true := by
  decide

/-! ### The listeners follow the state -/

theorem Frame.refl (w : World) : Frame w w := ⟨rfl, rfl, rfl⟩

theorem Frame.trans {a b c : World} (h1 : Frame a b) (h2 : Frame b c) : Frame a c :=
  ⟨h2.1.trans h1.1, h2.2.1.trans h1.2.1, h2.2.2.trans h1.2.2⟩

theorem onAsrResult_frame (b : Bool) (t : Option String) (f : Bool) (w : World) :
    Frame w (onAsrResult b t f w) := by
  unfold onAsrResult Frame
  cases b <;> cases f <;> cases t <;> simp <;> split <;> simp

theorem runListener_frame (e : ServerEvent) (l : Listener) (w : World) :
    Frame w (runListener e l w) := by
  cases l <;> cases e <;> first | exact ⟨rfl, rfl, rfl⟩ | exact onAsrResult_frame _ _ _ w

theorem foldl_frame (e : ServerEvent) (ls : List (Nat × Listener)) (w : World) :
    Frame w (ls.foldl (fun acc l => runListener e l.2 acc) w) := by
  induction ls generalizing w with
  | nil => exact Frame.refl w
  | cons l ls ih =>
    simp only [List.foldl_cons]
    exact (runListener_frame e l.2 w).trans (ih _)

theorem handleStart_frame (ok : Bool) (w : World) : Frame w (handleStart ok w) := by
  unfold handleStart
  cases ok <;> cases h : getSocket w.net <;> simp [Frame]

theorem handleStop_frame (ok : Bool) (w : World) : Frame w (handleStop ok w) := by
  unfold handleStop
  cases ok <;> cases h : getSocket w.net <;> cases h2 : w.panel.forceStopped <;> simp [Frame]

theorem handleStartAnswer_frame (w : World) : Frame w (handleStartAnswer w) :=
  ⟨rfl, rfl, rfl⟩

theorem handleEndAnswer_frame (w : World) : Frame w (handleEndAnswer w) := by
  unfold handleEndAnswer
  dsimp only
  cases h : getSocket w.net
  · exact ⟨rfl, rfl, rfl⟩
  · dsimp only
    split <;> exact ⟨rfl, rfl, rfl⟩

theorem fireDebounce_frame (w : World) : Frame w (fireDebounce w) := by
  unfold fireDebounce
  split <;> exact ⟨rfl, rfl, rfl⟩

theorem mainListeners_congr (k : Nat) (p q : Panel) (h : depsOf p = depsOf q) :
    mainListeners k p = mainListeners k q := by
  simp only [depsOf, Deps.mk.injEq] at h
  simp [mainListeners, h.1, h.2.1, h.2.2]

theorem listenersOn_append (k : Nat) (a b : List (Nat × Listener)) :
    listenersOn k (a ++ b) = listenersOn k a ++ listenersOn k b := by
  simp [listenersOn]

theorem listenersOn_main (k : Nat) (p : Panel) :
    listenersOn k (mainListeners k p) = mainListeners k p := by
  simp [listenersOn, mainListeners]

theorem listenersOn_mount (k : Nat) :
    listenersOn k (mountListeners k) = mountListeners k := by
  simp [listenersOn, mountListeners]

theorem listenersOn_fresh (k : Nat) (ls : List (Nat × Listener))
    (h : ∀ l ∈ ls, l.1 < k) : listenersOn k ls = [] := by
  simp only [listenersOn, List.filter_eq_nil_iff, decide_eq_true_eq]
  intro l hl heq
  have := h l hl
  omega

/-- The socket effect after a change of its dependencies: cleanup, then a new
connection with the listeners of the current render. -/
theorem listening_resubscribe (w : World) (k : Nat) (hs : getSocket w.net = some k)
    (hall : ∀ l ∈ w.listeners, l.1 < w.net.opened) :
    Listening (socketEffect (socketCleanup w)) := by
  have hsock : w.net.socket = some k := hs
  refine ⟨w.net.opened, ?_, ?_, ?_, Or.inl ?_⟩
  · simp [socketEffect, socketCleanup, closeSocket, initSocket, getSocket, hsock]
  · simp [socketEffect, socketCleanup]
  · intro l hl
    simp only [socketEffect, socketCleanup, closeSocket, initSocket, hsock,
      List.mem_append] at hl ⊢
    rcases hl with hl | hl
    · exact Nat.lt_succ_of_lt (hall l hl)
    · simp only [mainListeners, List.mem_cons, List.mem_singleton, List.not_mem_nil,
        or_false] at hl
      rcases hl with h | h | h | h <;> simp [h]
  · simp only [socketEffect, socketCleanup, closeSocket, initSocket, hsock,
      listenersOn_append, listenersOn_main]
    rw [listenersOn_fresh _ _ hall]
    rfl

/-- A handler run followed by the re-render keeps the listeners in step with the state. -/
theorem listening_commit (w w' : World) (h : Listening w) (hf : Frame w w') :
    Listening (commit w') := by
  obtain ⟨k, hs, hd, hall, hl⟩ := h
  obtain ⟨fnet, fls, fdeps⟩ := hf
  unfold commit
  dsimp only
  split
  · rename_i heq
    have hpq : depsOf w.panel = depsOf w'.panel := by
      rw [← hd, ← fdeps]; exact heq.symm
    refine ⟨k, ?_, ?_, ?_, ?_⟩
    · simpa [fnet] using hs
    · exact heq.symm
    · simpa [fnet, fls] using hall
    · simp only [fls]
      rw [← mainListeners_congr k w.panel w'.panel hpq]
      exact hl
  · exact listening_resubscribe _ k (by simpa [fnet] using hs) (by simpa [fnet, fls] using hall)

theorem listening_mount (stored : Option Nat) : Listening (mount stored) := by
  refine ⟨0, rfl, rfl, ?_, Or.inr rfl⟩
  intro l hl
  simp only [mount, socketEffect, initSocket, mainListeners, mountListeners, List.nil_append,
    List.cons_append, List.mem_cons, List.mem_singleton, List.not_mem_nil, or_false] at hl
  have hopen : (mount stored).net.opened = 1 := rfl
  rw [hopen]
  rcases hl with h | h | h | h | h | h | h <;> simp [h]

theorem listening_step (w : World) (s : Step) (h : Listening w) : Listening (step w s) := by
  cases s with
  | server e =>
    simp only [step, deliver]
    split
    · exact listening_commit w _ h (foldl_frame e _ w)
    · exact h
  | user a =>
    cases a with
    | start ok =>
      simp only [step, act]
      split
      · exact listening_commit w _ h (handleStart_frame ok w)
      · exact h
    | stop ok =>
      simp only [step, act]
      split
      · exact listening_commit w _ h (handleStop_frame ok w)
      · exact h
    | startAnswer =>
      simp only [step, act]
      split
      · exact listening_commit w _ h (handleStartAnswer_frame w)
      · exact h
    | endAnswer =>
      simp only [step, act]
      split
      · exact listening_commit w _ h (handleEndAnswer_frame w)
      · exact h
  | debounceTimer => exact listening_commit w _ h (fireDebounce_frame w)
  | micGranted => exact h
  | micGrantedLate => exact h
  | emotionReply emotion =>
    refine listening_commit w _ h ?_
    unfold onEmotionReply
    cases emotion with
    | none => exact ⟨rfl, rfl, rfl⟩
    | some e => dsimp only; split <;> exact ⟨rfl, rfl, rfl⟩

/-- In every world reached from mount through `step` (each event followed by its
re-render) the listeners on the held connection are those of the latest render. -/
theorem listening_run (w : World) (steps : List Step) (h : Listening w) :
    Listening (run w steps) := by
  induction steps generalizing w with
  | nil => exact h
  | cons s steps ih => exact ih (step w s) (listening_step w s h)

/-- Feedback after a completed re-render: in every state in which the listeners are
those of the latest render (every state reached through `step` is one), handling
`ai_feedback` makes the history the old history followed by the single entry made of
the current question and of `processed_answer` when that is present and non-empty,
the submitted answer otherwise; and it sets `canAnswer` and `isAnswering` to false and
`hasAnswered` to true. -/
theorem aiFeedback_appends (w : World) (h : Listening w)
    (processed_answer audio_analysis : Option String) :
    (deliver (ServerEvent.aiFeedback processed_answer audio_analysis) w).panel.interviewHistory =
        w.panel.interviewHistory ++
          [⟨w.panel.question,
            match processed_answer with
            | some a => if a = "" then w.panel.userAnswer else a
            | none => w.panel.userAnswer⟩] ∧
      (deliver (ServerEvent.aiFeedback processed_answer audio_analysis) w).panel.canAnswer =
        false ∧
      (deliver (ServerEvent.aiFeedback processed_answer audio_analysis) w).panel.isAnswering =
        false ∧
      (deliver (ServerEvent.aiFeedback processed_answer audio_analysis) w).panel.hasAnswered =
        true := by
  obtain ⟨k, hs, _, _, hl⟩ := h
  simp only [deliver, hs, commit_panel, dispatch]
  rcases hl with hl | hl
  · rw [hl]
    cases processed_answer with
    | none => simp [mainListeners, runListener, onAiFeedback, answerOf]
    | some a =>
      by_cases ha : a = "" <;>
        simp [mainListeners, runListener, onAiFeedback, answerOf, truthy, ha]
  · rw [hl]
    cases processed_answer with
    | none =>
      cases audio_analysis with
      | none => simp [mainListeners, mountListeners, runListener, onAiFeedback, answerOf, onAudioAnalysis]
      | some b =>
        by_cases hb : b = "" <;>
          simp [mainListeners, mountListeners, runListener, onAiFeedback, answerOf, onAudioAnalysis, truthy, hb]
    | some a =>
      cases audio_analysis with
      | none =>
        by_cases ha : a = "" <;>
          simp [mainListeners, mountListeners, runListener, onAiFeedback, answerOf, onAudioAnalysis, truthy, ha]
      | some b =>
        by_cases ha : a = "" <;> by_cases hb : b = "" <;>
          simp [mainListeners, mountListeners, runListener, onAiFeedback, answerOf, onAudioAnalysis, truthy, ha, hb]

/-- Example: question "Q1", answer spoken and submitted, then feedback with
`processed_answer` "I think, therefore I am." on an empty history. -/
theorem aiFeedback_appends_witness :
    Listening (feedbackPending "Q1" "I think therefore I am") ∧
      (deliver (ServerEvent.aiFeedback (some "I think, therefore I am.") none)
        (feedbackPending "Q1" "I think therefore I am")).panel.interviewHistory =
        [⟨"Q1", "I think, therefore I am."⟩] ∧
      (deliver (ServerEvent.aiFeedback (some "I think, therefore I am.") none)
        (feedbackPending "Q1" "I think therefore I am")).panel.canAnswer = false ∧
      (deliver (ServerEvent.aiFeedback (some "I think, therefore I am.") none)
        (feedbackPending "Q1" "I think therefore I am")).panel.isAnswering = false ∧
      (deliver (ServerEvent.aiFeedback (some "I think, therefore I am.") none)
        (feedbackPending "Q1" "I think therefore I am")).panel.hasAnswered = true :=
  ⟨listening_run _ _ (listening_mount none),
    aiFeedback_appends (feedbackPending "Q1" "I think therefore I am")
      (listening_run _ _ (listening_mount none)) (some "I think, therefore I am.") none⟩

/-! ## Blank texts and trimming -/

/-- When nothing is left after stripping both ends, nothing was left after stripping
the front. -/
theorem dropWhile_reverse_nil {α : Type} (p : α → Bool) (l : List α)
    (h : ((l.dropWhile p).reverse.dropWhile p) = []) : l.dropWhile p = [] := by
  rw [List.dropWhile_eq_nil_iff] at h
  by_contra hne
  have hhead := List.head_dropWhile_not p l hne
  have hmem : (l.dropWhile p).head hne ∈ (l.dropWhile p).reverse :=
    List.mem_reverse.2 (List.head_mem hne)
  rw [h _ hmem] at hhead
  exact Bool.noConfusion hhead

/-- The test `text.trim()` is falsy exactly on the texts that are empty or white space
only. -/
theorem trim_eq_empty_iff (s : String) : trim s = "" ↔ isBlank s = true := by
  unfold trim isBlank
  constructor
  · intro h
    have h1 : ((s.data.dropWhile isWhiteSpace).reverse.dropWhile isWhiteSpace).reverse = [] :=
      congrArg String.data h
    have h2 := dropWhile_reverse_nil isWhiteSpace s.data (List.reverse_eq_nil_iff.1 h1)
    rw [List.dropWhile_eq_nil_iff] at h2
    simpa using h2
  · intro h
    have h2 : s.data.dropWhile isWhiteSpace = [] := by
      rw [List.dropWhile_eq_nil_iff]
      simpa using h
    simp [h2]

/-- The condition `text && text.trim()` of the handlers. -/
theorem nonblank_test (s : String) : (truthy s && truthy (trim s)) = !isBlank s := by
  by_cases h : isBlank s = true
  · have ht := (trim_eq_empty_iff s).2 h
    simp [h, ht, truthy]
  · have ht : trim s ≠ "" := fun e => h ((trim_eq_empty_iff s).1 e)
    have hs : s ≠ "" := by
      intro e
      subst e
      exact h (by decide)
    simp [h, ht, hs, truthy]

/-! ## Ending an answer, starting and stopping -/

/-- Re-rendering emits nothing. -/
theorem commit_emitted (w : World) : (commit w).emitted = w.emitted := by
  unfold commit
  dsimp only
  split <;> rfl

/-- Re-rendering shows no notice. -/
theorem commit_notices (w : World) : (commit w).notices = w.notices := by
  unfold commit
  dsimp only
  split <;> rfl

/-- What ending an answer with speech emits and sets: with a connection held and a
stable transcript `t` that is not blank, the end-answer action emits exactly
`end_answer` and then `user_answer` with text `t`, and after it `isAnswering` is false
(the recorder's prop with it), `canAnswer` is false, `userAnswer` is `t` and the live
transcript is empty. -/
theorem endAnswer_submits (w : World) (k : Nat) (hs : getSocket w.net = some k)
    (ht : isBlank w.panel.currentAnswerText = false) :
    (commit (handleEndAnswer w)).emitted =
        w.emitted ++ [(k, Emit.endAnswer), (k, Emit.userAnswer w.panel.currentAnswerText)] ∧
      (commit (handleEndAnswer w)).panel.isAnswering = false ∧
      (commit (handleEndAnswer w)).recorder.canAnswer = false ∧
      (commit (handleEndAnswer w)).panel.canAnswer = false ∧
      (commit (handleEndAnswer w)).panel.userAnswer = w.panel.currentAnswerText ∧
      (commit (handleEndAnswer w)).panel.currentAnswerText = "" := by
  have hnb := nonblank_test w.panel.currentAnswerText
  rw [ht] at hnb
  have hsock : getSocket { w with
      panel := { w.panel with
        isAnswering := false
        userAnswer := w.panel.currentAnswerText
        currentAnswerText := ""
        canAnswer := false } }.net = some k := hs
  have hE : handleEndAnswer w =
      { w with
        panel := { w.panel with
          isAnswering := false
          userAnswer := w.panel.currentAnswerText
          currentAnswerText := ""
          canAnswer := false }
        emitted := w.emitted ++
          [(k, Emit.endAnswer), (k, Emit.userAnswer w.panel.currentAnswerText)]
        notices := w.notices ++ [Notice.info "回答已提交，等待AI反馈"] } := by
    unfold handleEndAnswer
    simp [hs, hsock, hnb]
  rw [commit_emitted, commit_panel, commit_recorder, hE]
  refine ⟨rfl, rfl, ?_, rfl, rfl, rfl⟩
  simp only [recorderRender]
  split
  · rename_i h; exact h
  · rfl

/-- Example: the fragments "I think" and "I think therefore I am" were reconciled;
ending the answer submits "I think therefore I am". -/
theorem endAnswer_submits_witness :
    getSocket (answeringAfter "Q1" ["I think", "I think therefore I am"]).net = some 2 ∧
      isBlank (answeringAfter "Q1"
        ["I think", "I think therefore I am"]).panel.currentAnswerText = false ∧
      (commit (handleEndAnswer (answeringAfter "Q1"
        ["I think", "I think therefore I am"]))).emitted =
        [(2, Emit.endAnswer), (2, Emit.userAnswer "I think therefore I am")] :=
  ⟨by decide, by decide,
    (endAnswer_submits (answeringAfter "Q1" ["I think", "I think therefore I am"]) 2
      (by decide) (by decide)).1⟩

/-- Claim C12. Empty answer: with a connection held and a stable transcript that is
empty or white space only, the end-answer action emits `end_answer` and nothing else,
shows the warning, leaves `canAnswer` true and `isAnswering` false, and does not touch
the history. -/
theorem endAnswer_empty (w : World) (k : Nat) (hs : getSocket w.net = some k)
    (ht : isBlank w.panel.currentAnswerText = true) :
    (commit (handleEndAnswer w)).emitted = w.emitted ++ [(k, Emit.endAnswer)] ∧
      (commit (handleEndAnswer w)).notices =
        w.notices ++ [Notice.warning "没有检测到回答内容"] ∧
      (commit (handleEndAnswer w)).panel.canAnswer = true ∧
      (commit (handleEndAnswer w)).panel.isAnswering = false ∧
      (commit (handleEndAnswer w)).panel.interviewHistory = w.panel.interviewHistory := by
  have hnb := nonblank_test w.panel.currentAnswerText
  rw [ht] at hnb
  have hsock : getSocket { w with
      panel := { w.panel with
        isAnswering := false
        userAnswer := w.panel.currentAnswerText
        currentAnswerText := ""
        canAnswer := false } }.net = some k := hs
  have hE : handleEndAnswer w =
      { w with
        panel := { w.panel with
          isAnswering := false
          userAnswer := w.panel.currentAnswerText
          currentAnswerText := ""
          canAnswer := true }
        emitted := w.emitted ++ [(k, Emit.endAnswer)]
        notices := w.notices ++ [Notice.warning "没有检测到回答内容"] } := by
    unfold handleEndAnswer
    simp [hs, hsock, hnb]
  rw [commit_emitted, commit_notices, commit_panel, hE]
  exact ⟨rfl, rfl, rfl, rfl, rfl⟩

/-- Witness for C12: start answer, then end answer with no fragment delivered. -/
theorem endAnswer_empty_witness :
    getSocket (answeringAfter "Q1" []).net = some 2 ∧
      isBlank (answeringAfter "Q1" []).panel.currentAnswerText = true ∧
      (commit (handleEndAnswer (answeringAfter "Q1" []))).emitted = [(2, Emit.endAnswer)] ∧
      (commit (handleEndAnswer (answeringAfter "Q1" []))).panel.canAnswer = true :=
  ⟨by decide, by decide,
    (endAnswer_empty (answeringAfter "Q1" []) 2 (by decide) (by decide)).1,
    (endAnswer_empty (answeringAfter "Q1" []) 2 (by decide) (by decide)).2.2.1⟩

/-- Claim C13. Start resets the session: whatever the prior state and whether or not the
start request succeeds, after the start action the history, the live transcript, the
processed answer and the voice-analysis list are empty, the report is cleared, and
`forceStopped`, `isAnswering` and `hasAnswered` are false. -/
theorem start_resets (w : World) (ok : Bool) :
    (commit (handleStart ok w)).panel.interviewHistory = [] ∧
      (commit (handleStart ok w)).panel.currentAnswerText = "" ∧
      (commit (handleStart ok w)).panel.processedAnswer = "" ∧
      (commit (handleStart ok w)).panel.audioAnalysisList = [] ∧
      (commit (handleStart ok w)).panel.reportResult = none ∧
      (commit (handleStart ok w)).panel.forceStopped = false ∧
      (commit (handleStart ok w)).panel.isAnswering = false ∧
      (commit (handleStart ok w)).panel.hasAnswered = false := by
  rw [commit_panel]
  unfold handleStart
  cases ok <;> cases getSocket w.net <;> exact ⟨rfl, rfl, rfl, rfl, rfl, rfl, rfl, rfl⟩

/-- Claim C14, evaluated on the code. An emotion sample collected in a first session is
still in `videoEmotions` after that session is stopped and a new one is started, while
the history has been emptied; the next sample is appended to it. -/
theorem start_keeps_emotions :
    (run (mount none)
        [Step.user (UserAction.start true), Step.emotionReply (some "happy"),
         Step.user (UserAction.stop true)]).panel.videoEmotions = ["happy"] ∧
      (run (mount none)
        [Step.user (UserAction.start true), Step.emotionReply (some "happy"),
         Step.user (UserAction.stop true),
         Step.user (UserAction.start true)]).panel.videoEmotions = ["happy"] ∧
      (run (mount none)
        [Step.user (UserAction.start true), Step.emotionReply (some "happy"),
         Step.user (UserAction.stop true),
         Step.user (UserAction.start true)]).panel.interviewHistory = [] ∧
      (run (mount none)
        [Step.user (UserAction.start true), Step.emotionReply (some "happy"),
         Step.user (UserAction.stop true), Step.user (UserAction.start true),
         Step.emotionReply (some "sad")]).panel.videoEmotions = ["happy", "sad"] := by
  decide

/-- Counterexample for C15: in a running session (not force-stopped, connection 1
held) whose stop request fails, the stop action emits nothing and the session is not in
`ForceStopped`. -/
theorem userStop_request_fails :
    (run (mount none)
        [Step.user (UserAction.start true),
         Step.server (ServerEvent.aiQuestion "Q1")]).panel.forceStopped = false ∧
      getSocket (run (mount none)
        [Step.user (UserAction.start true),
         Step.server (ServerEvent.aiQuestion "Q1")]).net = some 1 ∧
      (run (mount none)
        [Step.user (UserAction.start true), Step.server (ServerEvent.aiQuestion "Q1"),
         Step.user (UserAction.stop false)]).emitted = [] ∧
      isForceStopped (run (mount none)
        [Step.user (UserAction.start true), Step.server (ServerEvent.aiQuestion "Q1"),
         Step.user (UserAction.stop false)]).panel = false := by
  decide

/-- Claim C15, amended. User stop: in a state that is not force-stopped and holds a
connection, when the stop request succeeds the stop action emits `interview_end` once
and leaves `forceStopped` true, `interviewing`, `canAnswer` and `isAnswering` false,
question, user answer, live transcript and processed answer empty and the report button
shown; when the request fails the handler leaves the world as it is. -/
theorem userStop_request_succeeds (w : World) (k : Nat) (ok : Bool)
    (hf : w.panel.forceStopped = false) (hs : getSocket w.net = some k) (hok : ok = true) :
    (commit (handleStop ok w)).emitted = w.emitted ++ [(k, Emit.interviewEnd)] ∧
      (commit (handleStop ok w)).panel.forceStopped = true ∧
      (commit (handleStop ok w)).panel.interviewing = false ∧
      (commit (handleStop ok w)).panel.canAnswer = false ∧
      (commit (handleStop ok w)).panel.isAnswering = false ∧
      (commit (handleStop ok w)).panel.question = "" ∧
      (commit (handleStop ok w)).panel.userAnswer = "" ∧
      (commit (handleStop ok w)).panel.currentAnswerText = "" ∧
      (commit (handleStop ok w)).panel.processedAnswer = "" ∧
      (commit (handleStop ok w)).panel.showReportBtn = true ∧
      handleStop false w = w := by
  subst hok
  have hE : handleStop true w =
      { w with
        emitted := w.emitted ++ [(k, Emit.interviewEnd)]
        panel := { w.panel with
          interviewing := false
          forceStopped := true
          question := ""
          userAnswer := ""
          isAnswering := false
          canAnswer := false
          currentAnswerText := ""
          processedAnswer := ""
          showReportBtn := true } } := by
    unfold handleStop
    simp [hf, hs]
  have hF : handleStop false w = w := by
    unfold handleStop
    simp [hf]
  rw [commit_emitted, commit_panel, hE]
  exact ⟨rfl, rfl, rfl, rfl, rfl, rfl, rfl, rfl, rfl, rfl, hF⟩

/-- Witness for C15: stopping while answering the first question. -/
theorem userStop_request_succeeds_witness :
    (answeringAfter "Q1" []).panel.forceStopped = false ∧
      getSocket (answeringAfter "Q1" []).net = some 2 ∧
      (commit (handleStop true (answeringAfter "Q1" []))).emitted =
        [(2, Emit.interviewEnd)] ∧
      (commit (handleStop true (answeringAfter "Q1" []))).panel.forceStopped = true :=
  ⟨by decide, by decide,
    (userStop_request_succeeds (answeringAfter "Q1" []) 2 true (by decide) (by decide) rfl).1,
    (userStop_request_succeeds (answeringAfter "Q1" []) 2 true (by decide) (by decide)
      rfl).2.1⟩

/-- Claim C17, evaluated on the code. Start records connection 0 as the session id; the
first `ai_question` closes connection 0 and opens connection 1 while the session is
still running and the recorded id is still 0. -/
theorem sid_connection_replaced :
    (run (mount none) [Step.user (UserAction.start true)]).panel.interviewSid = some 0 ∧
      getSocket (run (mount none) [Step.user (UserAction.start true)]).net = some 0 ∧
      (run (mount none)
        [Step.user (UserAction.start true),
         Step.server (ServerEvent.aiQuestion "Q1")]).panel.interviewSid = some 0 ∧
      (run (mount none)
        [Step.user (UserAction.start true),
         Step.server (ServerEvent.aiQuestion "Q1")]).net.closed = [0] ∧
      getSocket (run (mount none)
        [Step.user (UserAction.start true),
         Step.server (ServerEvent.aiQuestion "Q1")]).net = some 1 ∧
      (run (mount none)
        [Step.user (UserAction.start true),
         Step.server (ServerEvent.aiQuestion "Q1")]).panel.interviewing = true ∧
      (run (mount none)
        [Step.user (UserAction.start true),
         Step.server (ServerEvent.aiQuestion "Q1")]).panel.forceStopped = false := by
  decide

/-- The `asr_result` handler does not write component state. -/
theorem onAsrResult_panel (b : Bool) (t : Option String) (f : Bool) (w : World) :
    (onAsrResult b t f w).panel = w.panel := by
  unfold onAsrResult
  cases b <;> cases f <;> cases t <;> simp <;> split <;> simp

/-- The four flags of `ForceStopped`. -/
theorem isForceStopped_iff (p : Panel) :
    isForceStopped p = true ↔
      p.forceStopped = true ∧ p.interviewing = false ∧ p.canAnswer = false ∧
        p.isAnswering = false := by
  unfold isForceStopped
  cases p.forceStopped <;> cases p.interviewing <;> cases p.canAnswer <;>
    cases p.isAnswering <;> simp

/-- Flags after the `ai_feedback` handler. -/
theorem onAiFeedback_flags (q a : String) (pa : Option String) (p : Panel) :
    (onAiFeedback q a pa p).forceStopped = p.forceStopped ∧
      (onAiFeedback q a pa p).interviewing = p.interviewing ∧
      (onAiFeedback q a pa p).isAnswering = false ∧
      (onAiFeedback q a pa p).canAnswer = false := by
  unfold onAiFeedback
  cases pa with
  | none => exact ⟨rfl, rfl, rfl, rfl⟩
  | some x => dsimp only; split <;> exact ⟨rfl, rfl, rfl, rfl⟩

/-- The voice-analysis handlers keep the flags. -/
theorem onAudioAnalysis_flags (aa : Option String) (p : Panel) :
    (onAudioAnalysis aa p).forceStopped = p.forceStopped ∧
      (onAudioAnalysis aa p).interviewing = p.interviewing ∧
      (onAudioAnalysis aa p).isAnswering = p.isAnswering ∧
      (onAudioAnalysis aa p).canAnswer = p.canAnswer := by
  unfold onAudioAnalysis
  cases aa with
  | none => exact ⟨rfl, rfl, rfl, rfl⟩
  | some x => dsimp only; split <;> exact ⟨rfl, rfl, rfl, rfl⟩

/-- Flags after a server event arrives in a force-stopped state. -/
theorem forceStopped_after_event (w : World) (e : ServerEvent)
    (hF : isForceStopped w.panel = true) (hL : Listening w) :
    (deliver e w).panel.forceStopped = true ∧ (deliver e w).panel.interviewing = false ∧
      (deliver e w).panel.isAnswering = false ∧
      (deliver e w).panel.canAnswer = reenables (Step.server e) := by
  obtain ⟨h1, h2, h3, h4⟩ := (isForceStopped_iff w.panel).1 hF
  obtain ⟨k, hs, _, _, hl⟩ := hL
  simp only [deliver, hs, commit_panel, dispatch]
  rcases hl with hl | hl <;> rw [hl] <;> cases e <;>
    simp [mainListeners, mountListeners, runListener, onAiQuestion, onCanAnswer,
      onAsrResult_panel, onAiFeedback_flags, onInterviewForceStop, onAudioAnalysis_flags,
      reenables, h1, h2, h3, h4]

/-- Counterexample for C16: after a user stop the session is force-stopped; an
`ai_question` (or a `can_answer`) arriving then sets `canAnswer` to true, the session
is no longer in `ForceStopped`, and start answer sets `isAnswering` to true. -/
theorem forceStopped_reenabled :
    isForceStopped (run (mount none)
        [Step.user (UserAction.start true), Step.server (ServerEvent.aiQuestion "Q1"),
         Step.user (UserAction.stop true)]).panel = true ∧
      (run (mount none)
        [Step.user (UserAction.start true), Step.server (ServerEvent.aiQuestion "Q1"),
         Step.user (UserAction.stop true),
         Step.server (ServerEvent.aiQuestion "Q2")]).panel.canAnswer = true ∧
      isForceStopped (run (mount none)
        [Step.user (UserAction.start true), Step.server (ServerEvent.aiQuestion "Q1"),
         Step.user (UserAction.stop true),
         Step.server (ServerEvent.aiQuestion "Q2")]).panel = false ∧
      (run (mount none)
        [Step.user (UserAction.start true), Step.server (ServerEvent.aiQuestion "Q1"),
         Step.user (UserAction.stop true), Step.server (ServerEvent.aiQuestion "Q2"),
         Step.user UserAction.startAnswer]).panel.isAnswering = true ∧
      (run (mount none)
        [Step.user (UserAction.start true), Step.server (ServerEvent.aiQuestion "Q1"),
         Step.user (UserAction.stop true),
         Step.server ServerEvent.canAnswer]).panel.canAnswer = true := by
  decide

/-- Claim C16, amended. From every force-stopped state, every step other than a fresh
start leaves `forceStopped` true, `interviewing` false and `isAnswering` false; and
`canAnswer` stays false except after `ai_question` and `can_answer`, which set it to
true. -/
theorem forceStopped_after_step (w : World) (s : Step)
    (hF : isForceStopped w.panel = true) (hL : Listening w) (hs : isStart s = false) :
    (step w s).panel.forceStopped = true ∧ (step w s).panel.interviewing = false ∧
      (step w s).panel.isAnswering = false ∧
      (step w s).panel.canAnswer = reenables s := by
  obtain ⟨h1, h2, h3, h4⟩ := (isForceStopped_iff w.panel).1 hF
  cases s with
  | server e => exact forceStopped_after_event w e hF hL
  | user a =>
    cases a with
    | start ok => simp [isStart] at hs
    | stop ok => simp [step, act, h2, reenables, h1, h3, h4]
    | startAnswer => simp [step, act, startAnswerShown, h2, reenables, h1, h3, h4]
    | endAnswer => simp [step, act, endAnswerShown, h2, reenables, h1, h3, h4]
  | debounceTimer =>
    simp only [step, commit_panel, reenables]
    unfold fireDebounce
    split <;> exact ⟨h1, h2, h4, h3⟩
  | micGranted => exact ⟨h1, h2, h4, h3⟩
  | micGrantedLate => exact ⟨h1, h2, h4, h3⟩
  | emotionReply emotion =>
    simp only [step, commit_panel, reenables]
    unfold onEmotionReply
    cases emotion with
    | none => exact ⟨h1, h2, h4, h3⟩
    | some x => dsimp only; split <;> exact ⟨h1, h2, h4, h3⟩

/-- Witness for C16: a late `ai_feedback` after a user stop leaves the session in
`ForceStopped`. -/
theorem forceStopped_after_step_witness :
    isForceStopped (run (mount none)
        [Step.user (UserAction.start true), Step.server (ServerEvent.aiQuestion "Q1"),
         Step.user (UserAction.stop true)]).panel = true ∧
      isStart (Step.server (ServerEvent.aiFeedback (some "late") none)) = false ∧
      isForceStopped (step (run (mount none)
        [Step.user (UserAction.start true), Step.server (ServerEvent.aiQuestion "Q1"),
         Step.user (UserAction.stop true)])
        (Step.server (ServerEvent.aiFeedback (some "late") none))).panel = true :=
  ⟨by decide, by decide,
    (isForceStopped_iff _).2
      ((fun h => ⟨h.1, h.2.1, h.2.2.2, h.2.2.1⟩)
        (forceStopped_after_step
          (run (mount none)
            [Step.user (UserAction.start true), Step.server (ServerEvent.aiQuestion "Q1"),
             Step.user (UserAction.stop true)])
          (Step.server (ServerEvent.aiFeedback (some "late") none)) (by decide)
          (listening_run _ _ (listening_mount none)) (by decide)))⟩

/-! ## Debounced fragments -/

/-- Re-rendering does not touch the pending timer. -/
theorem commit_debounce (w : World) : (commit w).debounce = w.debounce := by
  unfold commit
  dsimp only
  split <;> rfl

/-- While answering, a non-blank `asr_result` only replaces the pending fragment. -/
theorem deliver_asr_answering (w : World) (hL : Listening w)
    (ha : w.panel.isAnswering = true) (f : String × Bool) (hb : isBlank f.1 = false) :
    (step w (asrStep f)).panel = w.panel ∧
      (step w (asrStep f)).debounce = some (trim f.1) ∧
      Listening (step w (asrStep f)) := by
  refine ⟨?_, ?_, listening_step w _ hL⟩
  · obtain ⟨k, hs, _, _, hl⟩ := hL
    simp only [step, asrStep, deliver, hs, commit_panel, dispatch]
    rcases hl with hl | hl <;> rw [hl] <;>
      simp [mainListeners, mountListeners, runListener, onAsrResult_panel]
  · obtain ⟨k, hs, _, _, hl⟩ := hL
    have hnb := nonblank_test f.1
    rw [hb] at hnb
    have hnb2 : truthy f.1 = true ∧ truthy (trim f.1) = true := by simpa using hnb
    simp only [step, asrStep, deliver, hs, commit_debounce, dispatch]
    rcases hl with hl | hl <;> rw [hl] <;> cases hf : f.2 <;>
      simp [mainListeners, mountListeners, runListener, onAsrResult, ha, hnb2]

/-- Running two sequences of steps one after the other. -/
theorem run_append (w : World) (a b : List Step) : run w (a ++ b) = run (run w a) b := by
  simp [run, List.foldl_append]

/-- Any number of non-blank `asr_result` events in a row, while answering, leave the
transcript alone and keep only the last fragment pending. -/
theorem run_asr_answering (frags : List (String × Bool)) (w : World) (hL : Listening w)
    (ha : w.panel.isAnswering = true) (hb : ∀ f ∈ frags, isBlank f.1 = false) :
    (run w (frags.map asrStep)).panel = w.panel ∧ Listening (run w (frags.map asrStep)) := by
  induction frags generalizing w with
  | nil => exact ⟨rfl, hL⟩
  | cons f frags ih =>
    have h1 := deliver_asr_answering w hL ha f (hb f (List.mem_cons_self _ _))
    have h2 := ih (step w (asrStep f)) h1.2.2 (by rw [h1.1]; exact ha)
      (fun g hg => hb g (List.mem_cons_of_mem _ hg))
    simp only [List.map_cons, run, List.foldl_cons] at h2 ⊢
    exact ⟨h2.1.trans h1.1, h2.2⟩

/-- Expiry of the timer reconciles the pending fragment into the transcript. -/
theorem timer_panel (v : World) (t : String) (hd : v.debounce = some t) :
    (step v Step.debounceTimer).panel =
      { v.panel with currentAnswerText := asrUpdater t v.panel.currentAnswerText } := by
  simp [step, commit_panel, fireDebounce, hd]

/-- One debounce window applies exactly its last fragment. -/
theorem run_window (w : World) (hL : Listening w) (ha : w.panel.isAnswering = true)
    (win : List (String × Bool) × (String × Bool))
    (hb : ∀ f ∈ win.1 ++ [win.2], isBlank f.1 = false) :
    (run w (windowSteps win)).panel =
        { w.panel with
          currentAnswerText := asrUpdater (trim win.2.1) w.panel.currentAnswerText } ∧
      Listening (run w (windowSteps win)) := by
  have h1 := run_asr_answering win.1 w hL ha
    (fun f hf => hb f (List.mem_append_left _ hf))
  have h2 := deliver_asr_answering (run w (win.1.map asrStep)) h1.2 (by rw [h1.1]; exact ha)
    win.2 (hb win.2 (by simp))
  have hrun : run w (windowSteps win) =
      step (step (run w (win.1.map asrStep)) (asrStep win.2)) Step.debounceTimer := by
    simp [windowSteps, run_append, run]
  rw [hrun]
  refine ⟨?_, listening_step _ _ h2.2.2⟩
  rw [timer_panel _ _ h2.2.1, h2.1, h1.1]

/-- Claim C18. Debounce coalescing: while answering, for any sequence of debounce windows,
each made of non-blank fragments delivered with no timer expiry in between and then
the expiry, the stable transcript ends as the fold of the updater over the last
fragment (trimmed) of each window, in delivery order; for one window with stable
transcript `p` and last fragment `fn` this is the updater applied to `fn` and `p`. The
earlier fragments of a window do not occur in the result. -/
theorem debounce_coalesces (w : World) (hL : Listening w) (ha : w.panel.isAnswering = true)
    (wins : List (List (String × Bool) × (String × Bool)))
    (hb : ∀ win ∈ wins, ∀ f ∈ win.1 ++ [win.2], isBlank f.1 = false) :
    (run w (wins.flatMap windowSteps)).panel.currentAnswerText =
      wins.foldl (fun acc win => asrUpdater (trim win.2.1) acc) w.panel.currentAnswerText := by
  induction wins generalizing w with
  | nil => rfl
  | cons win wins ih =>
    have h1 := run_window w hL ha win (hb win (List.mem_cons_self _ _))
    have h2 := ih (run w (windowSteps win)) h1.2 (by rw [h1.1]; exact ha)
      (fun v hv => hb v (List.mem_cons_of_mem _ hv))
    simp only [List.flatMap_cons, run_append, List.foldl_cons]
    rw [h2, h1.1]

/-! ## What trimming removes -/

/-- The trimmed text is the text without a white-space prefix and a white-space suffix. -/
theorem trim_decomp (s : String) :
    ∃ pre post : List Char, s.data = pre ++ (trim s).data ++ post ∧
      pre.all isWhiteSpace = true ∧ post.all isWhiteSpace = true := by
  refine ⟨s.data.takeWhile isWhiteSpace,
    ((s.data.dropWhile isWhiteSpace).reverse.takeWhile isWhiteSpace).reverse, ?_, ?_, ?_⟩
  · have h1 := List.takeWhile_append_dropWhile isWhiteSpace s.data
    have h2 := List.takeWhile_append_dropWhile isWhiteSpace
      (s.data.dropWhile isWhiteSpace).reverse
    have h3 := congrArg List.reverse h2
    simp only [List.reverse_append, List.reverse_reverse] at h3
    simp only [trim, List.append_assoc]
    rw [h3, h1]
  · rw [List.all_eq_true]
    intro x hx
    exact List.mem_takeWhile_imp hx
  · rw [List.all_eq_true]
    intro x hx
    exact List.mem_takeWhile_imp (List.mem_reverse.1 hx)

/-- The trimmed text does not end with white space. -/
theorem trim_getLast (s : String) (c : Char) (h : (trim s).data.getLast? = some c) :
    isWhiteSpace c = false := by
  simp only [trim, List.getLast?_reverse] at h
  have := List.head?_dropWhile_not isWhiteSpace (s.data.dropWhile isWhiteSpace).reverse
  rw [h] at this
  simpa using this

/-- The trimmed text does not start with white space. -/
theorem trim_head (s : String) (c : Char) (h : (trim s).data.head? = some c) :
    isWhiteSpace c = false := by
  obtain ⟨pre, post, hd, _, _⟩ := trim_decomp s
  have h0 := List.head?_dropWhile_not isWhiteSpace s.data
  have h2 := List.takeWhile_append_dropWhile isWhiteSpace
    (s.data.dropWhile isWhiteSpace).reverse
  have h3 := congrArg List.reverse h2
  simp only [List.reverse_append, List.reverse_reverse] at h3
  have h4 : (s.data.dropWhile isWhiteSpace).head? = some c := by
    rw [← h3, List.head?_append]
    have : ((s.data.dropWhile isWhiteSpace).reverse.dropWhile isWhiteSpace).reverse.head? =
        some c := h
    rw [this]
    rfl
  rw [h4] at h0
  simpa using h0

/-- Witness for C18: two windows, of three and two fragments. -/
theorem debounce_coalesces_witness :
    Listening (answeringAfter "Q1" []) ∧
      (answeringAfter "Q1" []).panel.isAnswering = true ∧
      (run (answeringAfter "Q1" [])
        (List.flatMap
          [([("I", false), ("I th", false)], ("I think", false)),
           ([("therefore", false)], ("I think therefore I am", true))]
          windowSteps)).panel.currentAnswerText =
        "I think therefore I am" :=
  ⟨listening_run _ _ (listening_mount none), by decide,
    (debounce_coalesces (answeringAfter "Q1" []) (listening_run _ _ (listening_mount none))
      (by decide)
      [([("I", false), ("I th", false)], ("I think", false)),
       ([("therefore", false)], ("I think therefore I am", true))]
      (by decide)).trans (by decide)⟩

/-- Counterexample for C19: with the update counter at 1, a final `asr_result` whose
text is white space only, or missing, sets the counter to 0. -/
theorem blank_final_resets_counter :
    (answeringAfter "Q1" ["hi"]).asrUpdateCount = 1 ∧
      textBlank (some "  ") = true ∧
      (step (answeringAfter "Q1" ["hi"])
        (Step.server (ServerEvent.asrResult (some "  ") true))).asrUpdateCount = 0 ∧
      (step (answeringAfter "Q1" ["hi"])
        (Step.server (ServerEvent.asrResult none true))).asrUpdateCount = 0 := by
  decide

/-- Claim C19, amended. An `asr_result` whose text is missing, empty or white space only
leaves the component state (the stable transcript with it) and the pending debounced
update unchanged, and leaves the update counter unchanged unless the result is final,
which resets it to 0. For any other text, while answering, the pending update becomes
the trimmed text, which is what the timer expiry reconciles into the transcript; the
trimmed text is the text without a white-space prefix and a white-space suffix, and
neither starts nor ends with white space. -/
theorem asrResult_blank_or_trimmed (b isFinal : Bool) (text : Option String) (w : World) :
    if textBlank text = true then
      (onAsrResult b text isFinal w).panel = w.panel ∧
        (onAsrResult b text isFinal w).debounce = w.debounce ∧
        (onAsrResult b text isFinal w).asrUpdateCount =
          (if isFinal = true then 0 else w.asrUpdateCount)
    else
      (onAsrResult true text isFinal w).debounce = some (trim (text.getD "")) ∧
        (fireDebounce (onAsrResult true text isFinal w)).panel.currentAnswerText =
          asrUpdater (trim (text.getD "")) w.panel.currentAnswerText ∧
        (∃ pre post : List Char,
          (text.getD "").data = pre ++ (trim (text.getD "")).data ++ post ∧
            pre.all isWhiteSpace = true ∧ post.all isWhiteSpace = true) ∧
        (∀ c, (trim (text.getD "")).data.head? = some c → isWhiteSpace c = false) ∧
        (∀ c, (trim (text.getD "")).data.getLast? = some c → isWhiteSpace c = false) := by
  cases text with
  | none =>
    simp only [textBlank, if_true]
    unfold onAsrResult
    cases b <;> cases isFinal <;> simp
  | some t =>
    have hnb := nonblank_test t
    by_cases hb : isBlank t = true
    · simp only [textBlank, hb, if_true]
      rw [hb] at hnb
      unfold onAsrResult
      cases b <;> cases isFinal <;> simp [hnb]
    · have hb2 : isBlank t = false := by simpa using hb
      rw [hb2] at hnb
      have hnb2 : truthy t = true ∧ truthy (trim t) = true := by simpa using hnb
      simp only [textBlank, hb2, Bool.false_eq_true, if_false, Option.getD_some]
      refine ⟨?_, ?_, trim_decomp t, trim_head t, trim_getLast t⟩
      · unfold onAsrResult
        cases isFinal <;> simp [hnb2]
      · unfold onAsrResult fireDebounce
        cases isFinal <;> simp [hnb2]

/-! ## PCM conversion -/

/-- Storing an integer-valued truncation that already fits 16 bits does not wrap. -/
theorem wrap_of_range (t : Int) (h1 : -32768 ≤ t) (h2 : t ≤ 32767) :
    (if 32768 ≤ t % 65536 then t % 65536 - 65536 else t % 65536) = t := by
  split <;> omega

/-- A clamped sample: the stored value is the truncation toward zero of the scaled
sample and fits 16 bits. -/
theorem convert_clamped (c : ℚ) (hlo : -1 ≤ c) (hhi : c ≤ 1) :
    toInt16 (if c < 0 then c * 0x8000 else c * 0x7FFF) =
        (if (if c < 0 then c * 32768 else c * 32767) < 0
          then ⌈(if c < 0 then c * 32768 else c * 32767)⌉
          else ⌊(if c < 0 then c * 32768 else c * 32767)⌋) ∧
      -32768 ≤ toInt16 (if c < 0 then c * 0x8000 else c * 0x7FFF) ∧
      toInt16 (if c < 0 then c * 0x8000 else c * 0x7FFF) ≤ 32767 := by
  by_cases hc : c < 0
  · have hv : c * 32768 < 0 := by linarith
    have hceil : -⌊-(c * 32768)⌋ = ⌈c * 32768⌉ := by rw [Int.floor_neg, neg_neg]
    have h1 : -32768 ≤ ⌈c * 32768⌉ := by
      have h0 : ((-32769 : Int) : ℚ) < c * 32768 := by push_cast; linarith
      have := Int.lt_ceil.2 h0
      omega
    have h2 : ⌈c * 32768⌉ ≤ 0 := by
      apply Int.ceil_le.2
      push_cast
      linarith
    have hto : toInt16 (c * 32768) = ⌈c * 32768⌉ := by
      simp only [toInt16, hv, if_true, hceil]
      exact wrap_of_range _ h1 (by omega)
    simp only [hc, if_true, hv, hto]
    exact ⟨trivial, h1, by omega⟩
  · have hc0 : 0 ≤ c := not_lt.1 hc
    have hv : ¬ c * 32767 < 0 := by
      apply not_lt.2
      positivity
    have h1 : 0 ≤ ⌊c * 32767⌋ := Int.floor_nonneg.2 (by positivity)
    have h2 : ⌊c * 32767⌋ ≤ 32767 := by
      have h0 : c * 32767 < ((32768 : Int) : ℚ) := by push_cast; linarith
      have := Int.floor_lt.2 h0
      omega
    have hto : toInt16 (c * 32767) = ⌊c * 32767⌋ := by
      simp only [toInt16, hv, if_false]
      exact wrap_of_range _ (by omega) h2
    simp only [hc, if_false, hv, hto]
    exact ⟨trivial, by omega, h2⟩

/-- One sample through the conversion step shared by the three routines. -/
theorem convert_sample (x : ℚ) :
    toInt16 (if max (-1) (min 1 x) < 0 then max (-1) (min 1 x) * 0x8000
        else max (-1) (min 1 x) * 0x7FFF) = pcmSpec x ∧
      -32768 ≤ pcmSpec x ∧ pcmSpec x ≤ 32767 := by
  have hlo : (-1 : ℚ) ≤ max (-1) (min 1 x) := le_max_left _ _
  have hhi : max (-1) (min 1 x) ≤ (1 : ℚ) := max_le (by norm_num) (min_le_left _ _)
  have h := convert_clamped (max (-1) (min 1 x)) hlo hhi
  have hs : pcmSpec x = toInt16 (if max (-1) (min 1 x) < 0 then max (-1) (min 1 x) * 0x8000
        else max (-1) (min 1 x) * 0x7FFF) := h.1.symm
  rw [hs]
  exact ⟨rfl, h.2.1, h.2.2⟩

/-- The conversion loop computes the specified value for each sample. -/
theorem map_convert (buffer : List ℚ) :
    buffer.map (fun x =>
      let s := max (-1) (min 1 x)
      toInt16 (if s < 0 then s * 0x8000 else s * 0x7FFF)) = buffer.map pcmSpec :=
  List.map_congr_left (fun x _ => (convert_sample x).1)

/-- Samples above 1 are clamped to 1 and give 32767. -/
theorem pcmSpec_above (x : ℚ) (h : 1 < x) : pcmSpec x = 32767 := by
  have hm : max (-1) (min 1 x) = (1 : ℚ) := by
    rw [min_eq_left (le_of_lt h)]
    norm_num
  simp only [pcmSpec, hm]
  norm_num

/-- Claim C20. PCM conversion: each of the three routines returns, for every window of
rational samples, the frame of the same length whose elements are the truncation
toward zero of the clamped sample scaled by 32768 when negative and by 32767 otherwise;
every element lies in [-32768, 32767], so the 16-bit store does not wrap. The samples
-1, 1 and 0 give -32768, 32767 and 0, and every sample above 1 gives 32767. -/
theorem pcm_conversion (buffer : List ℚ) :
    float32ToInt16 buffer = buffer.map pcmSpec ∧
      onaudioprocessBuf buffer = buffer.map pcmSpec ∧
      mainFloat32ToInt16 buffer = buffer.map pcmSpec ∧
      (float32ToInt16 buffer).length = buffer.length ∧
      (onaudioprocessBuf buffer).length = buffer.length ∧
      (mainFloat32ToInt16 buffer).length = buffer.length ∧
      (∀ y ∈ buffer.map pcmSpec, -32768 ≤ y ∧ y ≤ 32767) ∧
      float32ToInt16 [-1, 1, 0] = [-32768, 32767, 0] ∧
      (∀ x : ℚ, 1 < x → float32ToInt16 [x] = [32767]) := by
  have h1 : float32ToInt16 buffer = buffer.map pcmSpec := map_convert buffer
  have h2 : onaudioprocessBuf buffer = buffer.map pcmSpec := map_convert buffer
  have h3 : mainFloat32ToInt16 buffer = buffer.map pcmSpec := map_convert buffer
  refine ⟨h1, h2, h3, by rw [h1, List.length_map], by rw [h2, List.length_map],
    by rw [h3, List.length_map], ?_, ?_, ?_⟩
  · intro y hy
    obtain ⟨x, _, rfl⟩ := List.mem_map.1 hy
    exact (convert_sample x).2
  · have h := map_convert [-1, 1, 0]
    rw [show float32ToInt16 [-1, 1, 0] = List.map pcmSpec [-1, 1, 0] from h]
    simp only [List.map_cons, List.map_nil, pcmSpec]
    norm_num
    rw [show (-32768 : ℚ) = ((-32768 : Int) : ℚ) by norm_num, Int.ceil_intCast]
  · intro x hx
    rw [show float32ToInt16 [x] = List.map pcmSpec [x] from map_convert [x]]
    simp [pcmSpec_above x hx]

/-! ## The socket module -/

/-- With a connection held, `initSocket` returns it and changes nothing. -/
theorem initSocket_held (m : SocketModule) (k : Nat) (h : m.socket = some k) :
    initSocket m = (k, m) := by
  simp [initSocket, h]

/-- After one call a connection is held, and it is the one returned. -/
theorem initSocket_holds (m : SocketModule) :
    (initSocket m).2.socket = some (initSocket m).1 := by
  unfold initSocket
  cases h : m.socket <;> simp [h]

/-- Calls of `initSocket` on a module that holds connection `k`. -/
theorem initSocketCalls_held (n : Nat) (m : SocketModule) (k : Nat) (h : m.socket = some k) :
    initSocketCalls n m = (List.replicate n k, m) := by
  induction n with
  | zero => rfl
  | succ n ih => simp [initSocketCalls, initSocket_held m k h, ih, List.replicate_succ]

/-- Claim C21. Connect is idempotent: with a connection held, `initSocket` returns that
connection and leaves the module as it is; and from any module state, any number of
consecutive `initSocket` calls all return one and the same connection, `getSocket`
returns it afterwards, no connection is closed, and the number of connections opened
grows by one when none was held and by none otherwise. -/
theorem initSocket_idempotent (m : SocketModule) (n : Nat) :
    (∀ k, m.socket = some k → initSocket m = (k, m)) ∧
      (initSocketCalls (n + 1) m).1 = List.replicate (n + 1) (initSocket m).1 ∧
      getSocket (initSocketCalls (n + 1) m).2 = some (initSocket m).1 ∧
      (initSocketCalls (n + 1) m).2.opened =
        m.opened + (if m.socket.isSome then 0 else 1) ∧
      (initSocketCalls (n + 1) m).2.closed = m.closed := by
  have hrest := initSocketCalls_held n (initSocket m).2 (initSocket m).1 (initSocket_holds m)
  refine ⟨fun k h => initSocket_held m k h, ?_, ?_, ?_, ?_⟩
  · simp [initSocketCalls, hrest, List.replicate_succ]
  · simp only [initSocketCalls, hrest, getSocket]
    exact initSocket_holds m
  · simp only [initSocketCalls, hrest]
    unfold initSocket
    cases h : m.socket <;> simp [h]
  · simp only [initSocketCalls, hrest]
    unfold initSocket
    cases h : m.socket <;> simp [h]

/-! ## Report assembly -/

/-- Claim C22. No-sample marker: for an absent or empty sample list `summarizeEmotions`
returns exactly the marker text, which is neither an empty table with a zero total
nor the empty string. -/
theorem summarizeEmotions_empty (host : String → String) :
    summarizeEmotions host none = "无视频数据" ∧
      summarizeEmotions host (some []) = "无视频数据" ∧
      summarizeEmotions host (some []) ≠ "。总采集帧数：0" ∧
      summarizeEmotions host (some []) ≠ "" := by
  refine ⟨rfl, rfl, ?_, ?_⟩
  · rw [show summarizeEmotions host (some []) = "无视频数据" from rfl]
    decide
  · rw [show summarizeEmotions host (some []) = "无视频数据" from rfl]
    decide

/-- Claim C23, evaluated on the code. The label `__proto__` is not listed at all (the
listed counts then sum to less than the total), and a label naming a function of
`Object.prototype`, such as `toString`, is listed with a text in place of its count;
ordinary labels are listed with their counts. -/
theorem summarizeEmotions_inherited_names :
    summarizeEmotions nativeText (some ["happy", "__proto__"]) = "happy：1次。总采集帧数：2" ∧
      summarizeEmotions nativeText (some ["__proto__"]) = "。总采集帧数：1" ∧
      summarizeEmotions nativeText (some ["toString", "toString"]) =
        "toString：function toString() { [native code] }11次。总采集帧数：2" ∧
      summarizeEmotions nativeText (some ["happy", "sad", "happy"]) =
        "happy：2次，sad：1次。总采集帧数：3" := by
  decide

/-- Claim C24. Voice-analysis numbering: the assembled text is the entries joined by
newlines, there are as many entries as texts, in the same order, and the entry at
position `k` (from 0) is the turn label with the number `k + 1` followed by the text at
position `k`; an empty list and a missing list give the empty string. -/
theorem audioAnalysisText_numbered (texts : List String) :
    (∃ entries : List String,
        audioAnalysisText (some (some texts)) = String.intercalate "\n" entries ∧
          entries.length = texts.length ∧
          ∀ k : Nat, entries[k]? =
            texts[k]?.map (fun t => "第" ++ toString (k + 1) ++ "轮：" ++ t)) ∧
      audioAnalysisText (some (some [])) = "" ∧
      audioAnalysisText (some none) = "" := by
  refine ⟨⟨texts.enum.map (fun it : Nat × String =>
      "第" ++ toString (it.1 + 1) ++ "轮：" ++ it.2), rfl, by simp, ?_⟩, rfl, rfl⟩
  intro k
  simp only [List.getElem?_map, List.getElem?_enum, Option.map_map]
  rfl

/-! ## The transcript within a turn -/

/-- A fragment is clean. -/
theorem IsFragment.clean {f : String} (h : IsFragment f) : Clean f := by
  refine ⟨h.1, fun c hc => ?_, fun c hc => ?_⟩
  · rw [← h.2] at hc; exact trim_head f c hc
  · rw [← h.2] at hc; exact trim_getLast f c hc

/-- A clean text is not blank. -/
theorem Clean.not_blank {s : String} (h : Clean s) : isBlank s = false := by
  obtain ⟨hne, hh, _⟩ := h
  unfold isBlank
  cases hd : s.data with
  | nil => exact absurd (String.ext hd) hne
  | cons c cs =>
    have := hh c (by rw [hd]; rfl)
    simp [this]

/-- Joining two clean texts with a space gives a clean text. -/
theorem Clean.join {p f : String} (hp : Clean p) (hf : Clean f) : Clean (p ++ " " ++ f) := by
  obtain ⟨hpn, hph, _⟩ := hp
  obtain ⟨hfn, _, hfl⟩ := hf
  refine ⟨join_ne_empty p f, fun c hc => ?_, fun c hc => ?_⟩
  · apply hph c
    cases hd : p.data with
    | nil => exact absurd (String.ext hd) hpn
    | cons a as =>
      simp only [String.data_append, hd, List.cons_append, List.head?_cons] at hc
      rw [← hc]; rfl
  · apply hfl c
    have hfd : f.data ≠ [] := fun h => hfn (String.ext h)
    simp only [String.data_append] at hc
    rw [List.getLast?_append_of_ne_nil _ hfd] at hc
    exact hc

/-- The first fragment of a turn becomes the transcript. -/
theorem asrUpdater_empty (f : String) : asrUpdater f "" = f := by
  unfold asrUpdater
  by_cases h : "" = f
  · simp [h]
  · simp [h, truthy]

/-- Applying a clean fragment to an empty or clean transcript gives a clean transcript. -/
theorem Clean.update {p f : String} (hp : p = "" ∨ Clean p) (hf : Clean f) :
    Clean (asrUpdater f p) := by
  rcases hp with hp | hp
  · rw [hp, asrUpdater_empty]; exact hf
  · rcases asrUpdater_cases p f with h | ⟨h, _, _⟩ | ⟨h, _⟩
    · rw [h]; exact hf
    · rw [h]; exact hp
    · rw [h]; exact hp.join hf

/-- The transcript stays clean under any further fragments. -/
theorem foldl_clean (frags : List String) (p : String) (hp : p = "" ∨ Clean p)
    (hf : ∀ f ∈ frags, IsFragment f) :
    frags.foldl (fun acc f => asrUpdater f acc) p = p ∨
      Clean (frags.foldl (fun acc f => asrUpdater f acc) p) := by
  induction frags generalizing p with
  | nil => exact Or.inl rfl
  | cons f frags ih =>
    have hc : Clean (asrUpdater f p) := Clean.update hp (hf f (List.mem_cons_self _ _)).clean
    rcases ih (asrUpdater f p) (Or.inr hc) (fun g hg => hf g (List.mem_cons_of_mem _ hg)) with
      h | h
    · right; simp only [List.foldl_cons]; rw [h]; exact hc
    · right; exact h

/-- After at least one fragment the reconciled transcript is clean. -/
theorem reconciled_clean (frags : List String) (hne : frags ≠ [])
    (hf : ∀ f ∈ frags, IsFragment f) : Clean (reconciled frags) := by
  cases frags with
  | nil => exact absurd rfl hne
  | cons f frags =>
    have hc : Clean (asrUpdater f "") :=
      Clean.update (Or.inl rfl) (hf f (List.mem_cons_self _ _)).clean
    rcases foldl_clean frags (asrUpdater f "") (Or.inr hc)
      (fun g hg => hf g (List.mem_cons_of_mem _ hg)) with h | h
    · unfold reconciled; simp only [List.foldl_cons]; rw [h]; exact hc
    · exact h

/-- The start-answer button, when shown, empties the transcript and starts answering. -/
theorem startAnswer_step (w : World) (hL : Listening w)
    (hs : startAnswerShown w.panel = true) :
    (step w (Step.user UserAction.startAnswer)).panel =
        { w.panel with
          isAnswering := true
          currentAnswerText := ""
          userAnswer := ""
          processedAnswer := "" } ∧
      Listening (step w (Step.user UserAction.startAnswer)) := by
  refine ⟨?_, listening_step w _ hL⟩
  simp only [step, act, hs, if_true, commit_panel]
  rfl

/-- Applying fragments one by one folds the updater over them. -/
theorem run_applySteps (frags : List String) (w : World) (hL : Listening w)
    (ha : w.panel.isAnswering = true) (hf : ∀ f ∈ frags, IsFragment f) :
    (run w (applySteps frags)).panel =
        { w.panel with
          currentAnswerText :=
            frags.foldl (fun acc f => asrUpdater f acc) w.panel.currentAnswerText } ∧
      Listening (run w (applySteps frags)) := by
  induction frags generalizing w with
  | nil => exact ⟨rfl, hL⟩
  | cons f frags ih =>
    have hfr := hf f (List.mem_cons_self _ _)
    have h1 := run_window w hL ha ([], (f, false))
      (by
        intro g hg
        simp only [List.nil_append, List.mem_singleton] at hg
        rw [hg]
        exact hfr.clean.not_blank)
    have hw : windowSteps ([], (f, false)) = [asrStep (f, false), Step.debounceTimer] := rfl
    rw [hw] at h1
    simp only [hfr.2] at h1
    have h2 := ih (run w [asrStep (f, false), Step.debounceTimer]) h1.2
      (by rw [h1.1]; exact ha) (fun g hg => hf g (List.mem_cons_of_mem _ hg))
    have hsteps : applySteps (f :: frags) =
        [asrStep (f, false), Step.debounceTimer] ++ applySteps frags := by
      simp [applySteps]
    rw [hsteps, run_append]
    refine ⟨?_, h2.2⟩
    rw [h2.1, h1.1]
    rfl

/-- The function `handleEndAnswer` on a held connection and a transcript that is not
blank. -/
theorem handleEndAnswer_spoken (w : World) (k : Nat) (hs : getSocket w.net = some k)
    (ht : isBlank w.panel.currentAnswerText = false) :
    handleEndAnswer w =
      { w with
        panel := { w.panel with
          isAnswering := false
          userAnswer := w.panel.currentAnswerText
          currentAnswerText := ""
          canAnswer := false }
        emitted := w.emitted ++
          [(k, Emit.endAnswer), (k, Emit.userAnswer w.panel.currentAnswerText)]
        notices := w.notices ++ [Notice.info "回答已提交，等待AI反馈"] } := by
  have hnb := nonblank_test w.panel.currentAnswerText
  rw [ht] at hnb
  have hsock : getSocket { w with
      panel := { w.panel with
        isAnswering := false
        userAnswer := w.panel.currentAnswerText
        currentAnswerText := ""
        canAnswer := false } }.net = some k := hs
  unfold handleEndAnswer
  simp [hs, hsock, hnb]

/-- The function `handleEndAnswer` on a held connection and a blank transcript. -/
theorem handleEndAnswer_silent (w : World) (k : Nat) (hs : getSocket w.net = some k)
    (ht : isBlank w.panel.currentAnswerText = true) :
    handleEndAnswer w =
      { w with
        panel := { w.panel with
          isAnswering := false
          userAnswer := w.panel.currentAnswerText
          currentAnswerText := ""
          canAnswer := true }
        emitted := w.emitted ++ [(k, Emit.endAnswer)]
        notices := w.notices ++ [Notice.warning "没有检测到回答内容"] } := by
  have hnb := nonblank_test w.panel.currentAnswerText
  rw [ht] at hnb
  have hsock : getSocket { w with
      panel := { w.panel with
        isAnswering := false
        userAnswer := w.panel.currentAnswerText
        currentAnswerText := ""
        canAnswer := false } }.net = some k := hs
  unfold handleEndAnswer
  simp [hs, hsock, hnb]

/-- Claim C25. Within a turn: from a state showing the start-answer button, after start
answer and the fragments applied in turn (each non-empty and trimmed) the stable
transcript is the fold of the updater over them from the empty text; with at least one
fragment it is non-empty, neither starts nor ends with white space, and is not blank;
and ending the answer then emits `end_answer` followed by `user_answer` with that text
exactly when the sequence is non-empty, and takes the empty-answer branch (only
`end_answer`, `canAnswer` true again) exactly when it is empty. -/
theorem transcript_never_blank (w : World) (hL : Listening w)
    (hs : startAnswerShown w.panel = true) (frags : List String)
    (hf : ∀ f ∈ frags, IsFragment f) :
    (run w (Step.user UserAction.startAnswer :: applySteps frags)).panel.currentAnswerText =
        reconciled frags ∧
      (frags ≠ [] → Clean (reconciled frags) ∧ isBlank (reconciled frags) = false) ∧
      (frags = [] → reconciled frags = "") ∧
      ∃ k, getSocket (run w (Step.user UserAction.startAnswer :: applySteps frags)).net =
          some k ∧
        (commit (handleEndAnswer
          (run w (Step.user UserAction.startAnswer :: applySteps frags)))).emitted =
          (run w (Step.user UserAction.startAnswer :: applySteps frags)).emitted ++
            (if frags = [] then [(k, Emit.endAnswer)]
              else [(k, Emit.endAnswer), (k, Emit.userAnswer (reconciled frags))]) ∧
        (commit (handleEndAnswer
          (run w (Step.user UserAction.startAnswer :: applySteps frags)))).panel.canAnswer =
          decide (frags = []) := by
  have h1 := startAnswer_step w hL hs
  have h2 := run_applySteps frags (step w (Step.user UserAction.startAnswer)) h1.2
    (by rw [h1.1]) hf
  have hrun : run w (Step.user UserAction.startAnswer :: applySteps frags) =
      run (step w (Step.user UserAction.startAnswer)) (applySteps frags) := rfl
  rw [hrun]
  have htext : (run (step w (Step.user UserAction.startAnswer))
      (applySteps frags)).panel.currentAnswerText = reconciled frags := by
    rw [h2.1, h1.1]
    rfl
  refine ⟨htext, fun hne => ⟨reconciled_clean frags hne hf,
    (reconciled_clean frags hne hf).not_blank⟩, fun he => by rw [he]; rfl, ?_⟩
  obtain ⟨k, hk, _⟩ := h2.2
  refine ⟨k, hk, ?_⟩
  rw [commit_emitted, commit_panel]
  by_cases he : frags = []
  · have hb : isBlank (run (step w (Step.user UserAction.startAnswer))
        (applySteps frags)).panel.currentAnswerText = true := by
      rw [htext, he]; rfl
    rw [handleEndAnswer_silent _ k hk hb]
    simp [he]
  · have hb : isBlank (run (step w (Step.user UserAction.startAnswer))
        (applySteps frags)).panel.currentAnswerText = false := by
      rw [htext]; exact (reconciled_clean frags he hf).not_blank
    rw [handleEndAnswer_spoken _ k hk hb]
    simp [he, htext]

/-- Witness for C25: the fragments "I think" and "I think therefore I am". -/
theorem transcript_never_blank_witness :
    Listening (posed "Q1") ∧ startAnswerShown (posed "Q1").panel = true ∧
      (run (posed "Q1") (Step.user UserAction.startAnswer ::
        applySteps ["I think", "I think therefore I am"])).panel.currentAnswerText =
        "I think therefore I am" :=
  ⟨listening_run _ _ (listening_mount none), by decide,
    (transcript_never_blank (posed "Q1") (listening_run _ _ (listening_mount none))
      (by decide) ["I think", "I think therefore I am"]
      (by
        intro f hf
        simp only [List.mem_cons, List.mem_singleton, List.not_mem_nil, or_false] at hf
        rcases hf with rfl | rfl <;> exact ⟨by decide, by decide⟩)).1.trans (by decide)⟩

/-! ### The frequency table on ordinary labels -/

/-- One more occurrence of an ordinary label keeps the table right. -/
theorem Counted.bump (host : String → String) {seen : List String}
    {stat : List (String × StatValue)} (h : Counted seen stat) (e : String)
    (he1 : e ≠ "__proto__") (he2 : e ∉ objectPrototypeMethods) :
    Counted (seen ++ [e]) (bump host stat e) := by
  obtain ⟨hnd, hmem, hval⟩ := h
  unfold Interview.bump
  simp only [he1, if_false]
  cases hl : stat.lookup e with
  | none =>
    simp only [he2, if_false]
    have hnot : e ∉ stat.map Prod.fst := by
      rw [List.lookup_eq_none_iff] at hl
      intro hin
      obtain ⟨kv, hkv, hk⟩ := List.mem_map.1 hin
      have := hl kv hkv
      simp [hk] at this
    have hseen : e ∉ seen := fun hs => hnot ((hmem e).2 hs)
    refine ⟨?_, ?_, ?_⟩
    · rw [List.map_append, List.nodup_append]
      refine ⟨hnd, by simp, ?_⟩
      intro a ha hb
      simp only [List.map_cons, List.map_nil, List.mem_singleton] at hb
      exact hnot (hb ▸ ha)
    · intro a
      simp only [List.map_append, List.map_cons, List.map_nil, List.mem_append,
        List.mem_singleton]
      rw [hmem a]
    · intro kv hkv
      rcases List.mem_append.1 hkv with hkv | hkv
      · have hne : kv.1 ≠ e := by
          intro heq
          exact hnot (heq ▸ List.mem_map_of_mem Prod.fst hkv)
        rw [hval kv hkv, List.count_append]
        simp [hne, Ne.symm hne]
      · simp only [List.mem_singleton] at hkv
        subst hkv
        simp [List.count_append, List.count_eq_zero_of_not_mem hseen]
  | some v =>
    obtain ⟨l₁, l₂, hsplit, _⟩ := List.lookup_eq_some_iff.1 hl
    have hin : (e, v) ∈ stat := by rw [hsplit]; simp
    have hv : v = StatValue.num (seen.count e) := hval (e, v) hin
    have hkeys : (stat.map (fun kv => if kv.1 = e then (e, orZeroPlusOne v) else kv)).map
        Prod.fst = stat.map Prod.fst := by
      rw [List.map_map]
      apply List.map_congr_left
      intro kv _
      by_cases hk : kv.1 = e <;> simp [hk]
    refine ⟨by rw [hkeys]; exact hnd, ?_, ?_⟩
    · intro a
      rw [hkeys, hmem a]
      simp only [List.mem_append, List.mem_singleton]
      constructor
      · exact Or.inl
      · rintro (ha | ha)
        · exact ha
        · rw [ha]; exact (hmem e).1 (List.mem_map_of_mem Prod.fst hin)
    · intro kv hkv
      obtain ⟨kv0, hkv0, rfl⟩ := List.mem_map.1 hkv
      by_cases hk : kv0.1 = e
      · simp only [hk, if_true, hv, orZeroPlusOne, List.count_append]
        simp
      · simp only [hk, if_false]
        rw [hval kv0 hkv0, List.count_append]
        simp [hk, Ne.symm hk]

/-- The object built by the counting loop holds the frequency table. -/
theorem counted_foldl (host : String → String) (es : List String)
    (hsafe : ∀ e ∈ es, e ≠ "__proto__" ∧ e ∉ objectPrototypeMethods) :
    Counted es (es.foldl (Interview.bump host) []) := by
  induction es using List.reverseRecOn with
  | nil => exact ⟨by simp, by simp, by simp⟩
  | append_singleton es e ih =>
    rw [List.foldl_append]
    simp only [List.foldl_cons, List.foldl_nil]
    have he := hsafe e (by simp)
    exact (ih (fun a ha => hsafe a (by simp [ha]))).bump host e he.1 he.2

/-- The entries are the own properties in another order. -/
theorem objectEntries_perm (stat : List (String × StatValue)) :
    (objectEntries stat).Perm stat := by
  unfold objectEntries
  exact ((List.perm_insertionSort _ _).append_right _).trans
    (List.filter_append_perm (fun kv => isArrayIndex kv.1) stat)

/-- On a non-empty list of ordinary labels (none of them a property name of
`Object.prototype`) the summary lists each distinct label once with the number of its
occurrences, the listed counts sum to the length of the list, and the total printed
is that length. -/
theorem summarizeEmotions_table (host : String → String) (es : List String) (hne : es ≠ [])
    (hsafe : ∀ e ∈ es, e ≠ "__proto__" ∧ e ∉ objectPrototypeMethods) :
    ∃ entries : List (String × Nat),
      summarizeEmotions host (some es) =
          String.intercalate "，"
              (entries.map (fun kv => kv.1 ++ "：" ++ toString kv.2 ++ "次")) ++
            ("。总采集帧数：" ++ toString es.length) ∧
        (entries.map Prod.fst).Nodup ∧
        (∀ e, e ∈ entries.map Prod.fst ↔ e ∈ es) ∧
        (∀ kv ∈ entries, kv.2 = es.count kv.1) ∧
        (entries.map Prod.snd).sum = es.length := by
  obtain ⟨hnd, hmem, hval⟩ := counted_foldl host es hsafe
  have hperm := objectEntries_perm (es.foldl (Interview.bump host) [])
  have hkeys : ((objectEntries (es.foldl (Interview.bump host) [])).map Prod.fst).Perm
      ((es.foldl (Interview.bump host) []).map Prod.fst) := hperm.map _
  refine ⟨(objectEntries (es.foldl (Interview.bump host) [])).map
    (fun kv => (kv.1, es.count kv.1)), ?_, ?_, ?_, ?_, ?_⟩
  · have hlen : es.length ≠ 0 := fun h => hne (List.eq_nil_of_length_eq_zero h)
    simp only [summarizeEmotions, hlen, if_false, List.map_map]
    congr 2
    apply List.map_congr_left
    intro kv hkv
    have := hval kv (hperm.mem_iff.1 hkv)
    simp [Function.comp, this, renderValue]
  · rw [List.map_map]
    exact hkeys.nodup_iff.2 hnd
  · intro e
    rw [List.map_map]
    exact (hkeys.mem_iff).trans (hmem e)
  · intro kv hkv
    obtain ⟨kv0, _, rfl⟩ := List.mem_map.1 hkv
    rfl
  · rw [List.map_map]
    have hk2 : ((objectEntries (es.foldl (Interview.bump host) [])).map Prod.fst).Perm
        es.dedup :=
      (List.perm_ext_iff_of_nodup (hkeys.nodup_iff.2 hnd) (List.nodup_dedup es)).2
        (fun a => by rw [hkeys.mem_iff, hmem a, List.mem_dedup])
    have hsum := List.sum_map_count_dedup_eq_length es
    have : (objectEntries (es.foldl (Interview.bump host) [])).map
        (Prod.snd ∘ fun kv => (kv.1, es.count kv.1)) =
        ((objectEntries (es.foldl (Interview.bump host) [])).map Prod.fst).map
          (fun x => es.count x) := by
      rw [List.map_map]
      rfl
    rw [this, ← hsum]
    exact (hk2.map _).sum_eq

/-! ## Capture graphs that no cleanup reaches -/

/-- No listener touches the recorder. -/
theorem runListener_recorder (e : ServerEvent) (l : Listener) (w : World) :
    (runListener e l w).recorder = w.recorder := by
  cases l <;> cases e <;> first
    | rfl
    | (simp only [runListener, onAsrResult]
       split <;> (try split) <;> (try split) <;> (try split) <;> rfl)

/-- Delivering an event to any listeners leaves the recorder alone. -/
theorem foldl_recorder (e : ServerEvent) (ls : List (Nat × Listener)) (w : World) :
    (ls.foldl (fun acc l => runListener e l.2 acc) w).recorder = w.recorder := by
  induction ls generalizing w with
  | nil => rfl
  | cons l ls ih =>
    simp only [List.foldl_cons]
    rw [ih, runListener_recorder]

/-- A re-render of the recorder keeps the stray graphs. -/
theorem recorderRender_stray (b : Bool) (r : AudioRecorder) :
    (recorderRender b r).stray = r.stray := by
  unfold recorderRender
  split <;> rfl

/-- A re-render keeps the stray graphs. -/
theorem commit_stray (w : World) : (commit w).recorder.stray = w.recorder.stray := by
  rw [commit_recorder, recorderRender_stray]

/-- No step releases a graph built by a late grant: such graphs stay, as they are, at
the end of the list of stray graphs. -/
theorem stray_kept (w : World) (s : Step) :
    w.recorder.stray <:+ (step w s).recorder.stray := by
  cases s with
  | server e =>
    simp only [step, deliver]
    split
    · rw [commit_stray]
      simp only [dispatch, foldl_recorder]
      exact List.suffix_refl _
    · exact List.suffix_refl _
  | user a =>
    cases a with
    | start ok =>
      simp only [step, act]
      split
      · rw [commit_stray]
        unfold handleStart
        cases ok <;> cases getSocket w.net <;> exact List.suffix_refl _
      · exact List.suffix_refl _
    | stop ok =>
      simp only [step, act]
      split
      · rw [commit_stray]
        unfold handleStop
        split
        · exact List.suffix_refl _
        · split
          · exact List.suffix_refl _
          · dsimp only
            split <;> exact List.suffix_refl _
      · exact List.suffix_refl _
    | startAnswer =>
      simp only [step, act]
      split
      · rw [commit_stray]; exact List.suffix_refl _
      · exact List.suffix_refl _
    | endAnswer =>
      simp only [step, act]
      split
      · rw [commit_stray]
        unfold handleEndAnswer
        dsimp only
        split
        · split <;> exact List.suffix_refl _
        · exact List.suffix_refl _
      · exact List.suffix_refl _
  | debounceTimer =>
    simp only [step]
    rw [commit_stray]
    unfold fireDebounce
    split <;> exact List.suffix_refl _
  | micGranted =>
    simp only [step, recorderResolve]
    split <;> exact List.suffix_refl _
  | micGrantedLate =>
    simp only [step, recorderResolveLate]
    split
    · exact List.suffix_refl _
    · exact List.suffix_cons _ _
  | emotionReply emotion =>
    simp only [step]
    rw [commit_stray]
    unfold onEmotionReply
    cases emotion with
    | none => exact List.suffix_refl _
    | some x => dsimp only; split <;> exact List.suffix_refl _

/-- Whatever happens afterwards, the stray graphs are still there. -/
theorem stray_kept_run (steps : List Step) (w : World) :
    w.recorder.stray <:+ (run w steps).recorder.stray := by
  induction steps generalizing w with
  | nil => exact List.suffix_refl _
  | cons s steps ih => exact (stray_kept w s).trans (ih (step w s))

/-- Claim C7, evaluated on the code. While answering with the microphone request still
unanswered, the forced-stop handler sets the state as the claim says, but the cleanup
of the recorder finds nothing to release; when the microphone is granted afterwards a
graph is built with its nodes connected, its context open and its tracks live, and no
later step releases it. With the microphone granted before the stop, the cleanup
releases the graph. -/
theorem forceStop_pending_grant :
    (answeringPending "Q1").panel.isAnswering = true ∧
      (answeringPending "Q1").recorder.canAnswer = true ∧
      (answeringPending "Q1").recorder.graph = none ∧
      isForceStopped (handleForceStop (answeringPending "Q1")).panel = true ∧
      (handleForceStop (answeringPending "Q1")).recorder.past = [] ∧
      (step (handleForceStop (answeringPending "Q1")) Step.micGrantedLate).recorder.stray =
        [⟨true, true, true, true⟩] ∧
      (∀ steps : List Step, (⟨true, true, true, true⟩ : CaptureGraph) ∈
        (run (step (handleForceStop (answeringPending "Q1")) Step.micGrantedLate)
          steps).recorder.stray) ∧
      (handleForceStop (answeringAfter "Q1" [])).recorder.past =
        [⟨false, false, false, false⟩] ∧
      (handleForceStop (answeringAfter "Q1" [])).recorder.stray = [] := by
  refine ⟨by decide, by decide, by decide, by decide, by decide, by decide, ?_, by decide,
    by decide⟩
  intro steps
  exact (stray_kept_run steps _).subset (by decide)

/-- Claim C10, evaluated on the code. In `FeedbackPending` with question "Q1" and
submitted answer "my answer", an `ai_question` "Q2" handled before the re-render makes
"Q2" the current question and empties the submitted answer, but the `ai_feedback`
listener still holds "Q1" and "my answer": the entry appended has question "Q1", and
answer "my answer" when no processed answer comes. With a re-render between the two
events the entry has question "Q2". -/
theorem aiFeedback_stale_closure :
    (receive (ServerEvent.aiQuestion "Q2")
        (feedbackPending "Q1" "my answer")).panel.question = "Q2" ∧
      (receive (ServerEvent.aiQuestion "Q2")
        (feedbackPending "Q1" "my answer")).panel.userAnswer = "" ∧
      (receive (ServerEvent.aiQuestion "Q2")
        (feedbackPending "Q1" "my answer")).panel.interviewHistory = [] ∧
      (deliver (ServerEvent.aiFeedback (some "P") none)
        (receive (ServerEvent.aiQuestion "Q2")
          (feedbackPending "Q1" "my answer"))).panel.interviewHistory = [⟨"Q1", "P"⟩] ∧
      (deliver (ServerEvent.aiFeedback none none)
        (receive (ServerEvent.aiQuestion "Q2")
          (feedbackPending "Q1" "my answer"))).panel.interviewHistory =
        [⟨"Q1", "my answer"⟩] ∧
      (deliver (ServerEvent.aiFeedback (some "P") none)
        (deliver (ServerEvent.aiQuestion "Q2")
          (feedbackPending "Q1" "my answer"))).panel.interviewHistory = [⟨"Q2", "P"⟩] := by
  decide

/-- Claim C11, evaluated on the code. With "I think" as the stable transcript and the
microphone request still unanswered, ending the answer emits `end_answer` and
`user_answer` and sets `isAnswering` to false, but the cleanup of the recorder finds
nothing to release; when the microphone is granted afterwards a graph is built with
its nodes connected, its context open and its tracks live, and no later step releases
it: capture is not stopped. With the microphone granted before, the cleanup releases
the graph. -/
theorem endAnswer_pending_grant :
    (run (answeringPending "Q1")
        [asrStep ("I think", false), Step.debounceTimer]).panel.currentAnswerText =
        "I think" ∧
      getSocket (run (answeringPending "Q1")
        [asrStep ("I think", false), Step.debounceTimer]).net = some 2 ∧
      (run (answeringPending "Q1")
        [asrStep ("I think", false), Step.debounceTimer]).recorder.graph = none ∧
      (run (answeringPending "Q1")
        [asrStep ("I think", false), Step.debounceTimer,
         Step.user UserAction.endAnswer]).emitted =
        [(2, Emit.endAnswer), (2, Emit.userAnswer "I think")] ∧
      (run (answeringPending "Q1")
        [asrStep ("I think", false), Step.debounceTimer,
         Step.user UserAction.endAnswer]).panel.isAnswering = false ∧
      (run (answeringPending "Q1")
        [asrStep ("I think", false), Step.debounceTimer,
         Step.user UserAction.endAnswer]).recorder.past = [] ∧
      (run (answeringPending "Q1")
        [asrStep ("I think", false), Step.debounceTimer, Step.user UserAction.endAnswer,
         Step.micGrantedLate]).recorder.stray = [⟨true, true, true, true⟩] ∧
      (∀ steps : List Step, (⟨true, true, true, true⟩ : CaptureGraph) ∈
        (run (run (answeringPending "Q1")
          [asrStep ("I think", false), Step.debounceTimer, Step.user UserAction.endAnswer,
           Step.micGrantedLate]) steps).recorder.stray) ∧
      (run (answeringAfter "Q1" ["I think"])
        [Step.user UserAction.endAnswer]).recorder.past = [⟨false, false, false, false⟩] ∧
      (run (answeringAfter "Q1" ["I think"])
        [Step.user UserAction.endAnswer]).recorder.stray = [] := by
  refine ⟨by decide, by decide, by decide, by decide, by decide, by decide, by decide, ?_,
    by decide, by decide⟩
  intro steps
  exact (stray_kept_run steps _).subset (by decide)

end Interview
